import Mathlib

/-!
Verification of the LSNP peer protocol engine (message codec, peer/session
store, tic-tac-toe game state machine, file-transfer reassembler).

Python strings are modelled as `List Char`, Python dicts as insertion-ordered
association lists (`pyDictGet` / `pyDictSet` mirror `d[k]` lookup and
assignment, which updates in place and otherwise appends).  Fallible parsing
is modelled with `Except`.  `time.time()` becomes an explicit `now` argument.
-/

/-- Shorthand turning a Lean string literal into the `List Char` model of a
Python `str`. -/
def cs (s : String) : List Char := s.toList

/-! ## Python string primitives -/

/-- ASCII whitespace, the characters stripped by Python `str.strip()` /
`str.lstrip()` with no argument (the model covers the ASCII range used by
the protocol). -/
def pyIsSpace (c : Char) : Bool :=
  c == ' ' || c == '\t' || c == '\n' || c == '\r' || c == '\x0b' || c == '\x0c'

/-- Python `s.lstrip()`. -/
def pyLstrip (l : List Char) : List Char := l.dropWhile pyIsSpace

/-- Python `s.strip()`. -/
def pyStrip (l : List Char) : List Char :=
  ((l.dropWhile pyIsSpace).reverse.dropWhile pyIsSpace).reverse

/-- Python `s.strip("\n")`. -/
def stripNLchars (l : List Char) : List Char :=
  ((l.dropWhile (· == '\n')).reverse.dropWhile (· == '\n')).reverse

/-- Python `s.replace("\r\n", "\n")`: left-to-right, non-overlapping. -/
def replCRLF : List Char → List Char
  | [] => []
  | [c] => [c]
  | a :: b :: rest =>
    if a == '\r' && b == '\n' then '\n' :: replCRLF rest
    else a :: replCRLF (b :: rest)

/-- Python `s.endswith("\n\n")`. -/
def endsWith2NL (l : List Char) : Bool :=
  l.reverse.take 2 == ['\n', '\n']

/-- Python `"\n".join(lines)`. -/
def intercalateNL : List (List Char) → List Char
  | [] => []
  | [l] => l
  | l :: ls => l ++ '\n' :: intercalateNL ls

/-- Python `s.split("\n")` (keeps empty pieces, `"".split` gives `[""]`). -/
def splitNL : List Char → List (List Char)
  | [] => [[]]
  | c :: rest =>
    if c == '\n' then [] :: splitNL rest
    else
      match splitNL rest with
      | [] => [[c]]
      | h :: t => (c :: h) :: t

/-- Decimal digits of a Nat (fuel-driven so that it reduces by `rfl`);
`natToStrCore fuel n` is correct whenever `n < fuel` in the sense used by
`natToStr`. -/
def natToStrCore : Nat → Nat → List Char
  | 0, _ => []
  | fuel + 1, n =>
    if n < 10 then [Char.ofNat (48 + n)]
    else natToStrCore fuel (n / 10) ++ [Char.ofNat (48 + n % 10)]

/-- Python `str(n)` for a non-negative int. -/
def natToStr (n : Nat) : List Char := natToStrCore (n + 1) n

/-- Python `str(i)` for an int. -/
def intToStr (i : Int) : List Char :=
  if i < 0 then '-' :: natToStr (-i).toNat else natToStr i.toNat

/-! ## Python dict (insertion ordered, keyed lookup) -/

/-- `d.get(k)` / `k in d` on an insertion-ordered dict. -/
def pyDictGet {α β : Type} [DecidableEq α] : List (α × β) → α → Option β
  | [], _ => none
  | (k', v) :: rest, k => if k' = k then some v else pyDictGet rest k

/-- `d[k] = v`: replaces in place if the key exists, else appends. -/
def pyDictSet {α β : Type} [DecidableEq α] : List (α × β) → α → β → List (α × β)
  | [], k, v => [(k, v)]
  | (k', v') :: rest, k, v =>
    if k' = k then (k, v) :: rest else (k', v') :: pyDictSet rest k v

/-! ## config.py -/

def MSG_TERMINATOR : List Char := ['\n', '\n']

def DEFAULT_TTL : Nat := 3600

/-! ## messages.py -/

/-- `REQUIRED_FIELDS` of `messages.py` (dict literal, as a lookup). -/
def REQUIRED_FIELDS (t : List Char) : Option (List (List Char)) :=
  if t = cs "PROFILE" then some [cs "TYPE", cs "USER_ID", cs "DISPLAY_NAME", cs "STATUS"]
  else if t = cs "POST" then some [cs "TYPE", cs "USER_ID", cs "CONTENT", cs "TTL", cs "MESSAGE_ID", cs "TOKEN"]
  else if t = cs "DM" then some [cs "TYPE", cs "FROM", cs "TO", cs "CONTENT", cs "TIMESTAMP", cs "MESSAGE_ID", cs "TOKEN"]
  else if t = cs "PING" then some [cs "TYPE", cs "USER_ID"]
  else if t = cs "ACK" then some [cs "TYPE", cs "MESSAGE_ID", cs "STATUS"]
  else if t = cs "FOLLOW" then some [cs "TYPE", cs "FROM", cs "TO", cs "TIMESTAMP", cs "MESSAGE_ID", cs "TOKEN"]
  else if t = cs "UNFOLLOW" then some [cs "TYPE", cs "FROM", cs "TO", cs "TIMESTAMP", cs "MESSAGE_ID", cs "TOKEN"]
  else if t = cs "TICTACTOE_INVITE" then some [cs "TYPE", cs "FROM", cs "TO", cs "GAMEID", cs "MESSAGE_ID", cs "SYMBOL", cs "TIMESTAMP", cs "TOKEN"]
  else if t = cs "TICTACTOE_MOVE" then some [cs "TYPE", cs "FROM", cs "TO", cs "GAMEID", cs "MESSAGE_ID", cs "POSITION", cs "SYMBOL", cs "TURN", cs "TOKEN"]
  else if t = cs "TICTACTOE_RESULT" then some [cs "TYPE", cs "FROM", cs "TO", cs "GAMEID", cs "MESSAGE_ID", cs "RESULT", cs "SYMBOL", cs "TIMESTAMP"]
  else if t = cs "TICTACTOE_MOVE_RESPONSE" then some [cs "TYPE", cs "FROM", cs "TO", cs "GAMEID", cs "MESSAGE_ID", cs "BOARD", cs "CURRENT_TURN", cs "WHOSE_TURN", cs "FINISHED", cs "TIMESTAMP"]
  else none

/-- `ParsedMessage` of `messages.py` (the `addr` field is always `None` when
produced by `parse_message` and is omitted). -/
structure ParsedMessage where
  type : List Char
  kv : List (List Char × List Char)
  raw : List Char
deriving DecidableEq, Repr

/-- The two `ValueError`s raised by `parse_message`; the missing-field error
carries the message type and the exact list of absent required keys that the
Python error string interpolates. -/
inductive DecodeError where
  | missingType
  | missingFields (msgType : List Char) (missing : List (List Char))
deriving DecidableEq, Repr

deriving instance DecidableEq for Except

/-- One `f"{k}: {v}"` line of `format_message`. -/
def mkLine (p : List Char × List Char) : List Char :=
  p.1 ++ ':' :: ' ' :: p.2

/-- `format_message` of `messages.py`: `"\n".join(f"{k}: {v}") + "\n\n"`. -/
def format_message (kv : List (List Char × List Char)) : List Char :=
  intercalateNL (kv.map mkLine) ++ MSG_TERMINATOR

/-- One iteration of the line loop in `parse_message`: skip blank lines and
lines without a colon, else split at the first colon, strip+uppercase the
key, lstrip the value, and assign into the dict. -/
def parseLine (kv : List (List Char × List Char)) (line : List Char) :
    List (List Char × List Char) :=
  if pyStrip line = [] then kv
  else if !(line.contains ':') then kv
  else
    let key := line.takeWhile (fun c => !(c == ':'))
    let rest := line.dropWhile (fun c => !(c == ':'))
    pyDictSet kv ((pyStrip key).map Char.toUpper) (pyLstrip (rest.drop 1))

/-- The dict accumulated from the body's lines. -/
def linesDict (body : List Char) : List (List Char × List Char) :=
  (splitNL body).foldl parseLine []

/-- The `body` computed by `parse_message` from the (CRLF-normalised) raw
text: strip the terminator if present, else strip stray newlines. -/
def msgBody (raw : List Char) : List Char :=
  if endsWith2NL raw then raw.take (raw.length - MSG_TERMINATOR.length)
  else stripNLchars raw

/-- The tail of `parse_message` after the body is fixed: build the dict,
demand `TYPE`, run the required-field check, apply the TTL/TIMESTAMP
defaults. -/
def parseFromBody (body raw : List Char) (now : Nat) :
    Except DecodeError ParsedMessage :=
  let kv := linesDict body
  let msg_type := ((pyDictGet kv (cs "TYPE")).getD []).map Char.toUpper
  if msg_type = [] then .error .missingType
  else
    let missing :=
      match REQUIRED_FIELDS msg_type with
      | some required => required.filter fun f => (pyDictGet kv f).isNone
      | none => []
    if missing ≠ [] then .error (.missingFields msg_type missing)
    else
      let kv1 :=
        if msg_type = cs "POST" ∧ (pyDictGet kv (cs "TTL")).isNone then
          pyDictSet kv (cs "TTL") (natToStr DEFAULT_TTL)
        else kv
      let kv2 :=
        if msg_type = cs "DM" ∧ (pyDictGet kv1 (cs "TIMESTAMP")).isNone then
          pyDictSet kv1 (cs "TIMESTAMP") (natToStr now)
        else kv1
      let kv3 :=
        if (msg_type = cs "TICTACTOE_INVITE" ∨ msg_type = cs "TICTACTOE_RESULT")
            ∧ (pyDictGet kv2 (cs "TIMESTAMP")).isNone then
          pyDictSet kv2 (cs "TIMESTAMP") (natToStr now)
        else kv2
      .ok ⟨msg_type, kv3, raw⟩

/-- `parse_message` of `messages.py`. -/
def parse_message (raw0 : List Char) (now : Nat) :
    Except DecodeError ParsedMessage :=
  let raw := replCRLF raw0
  parseFromBody (msgBody raw) raw now

example :
    parse_message (cs "TYPE: PROFILE\nUSER_ID: dave@192.168.1.10\nDISPLAY_NAME: Dave\nSTATUS: Exploring LSNP!\n\n") 0 =
      .ok ⟨cs "PROFILE",
        [(cs "TYPE", cs "PROFILE"), (cs "USER_ID", cs "dave@192.168.1.10"),
         (cs "DISPLAY_NAME", cs "Dave"), (cs "STATUS", cs "Exploring LSNP!")],
        cs "TYPE: PROFILE\nUSER_ID: dave@192.168.1.10\nDISPLAY_NAME: Dave\nSTATUS: Exploring LSNP!\n\n"⟩ := by
  decide

example :
    parse_message (cs "TYPE: POST\nUSER_ID: u@1\n\n") 0 =
      .error (.missingFields (cs "POST") [cs "CONTENT", cs "TTL", cs "MESSAGE_ID", cs "TOKEN"]) := by
  decide

example : parse_message (cs "TYPE: FILE_OFFER\n\n") 0 =
    .ok ⟨cs "FILE_OFFER", [(cs "TYPE", cs "FILE_OFFER")], cs "TYPE: FILE_OFFER\n\n"⟩ := by
  decide

/-! ## tictactoe.py -/

/-- `TicTacToeGame` of `tictactoe.py` (a 9-cell board of symbol strings,
`""` meaning unoccupied). -/
structure TicTacToeGame where
  game_id : List Char
  player1 : List Char
  player2 : List Char
  player1_symbol : List Char
  player2_symbol : List Char
  board : List (List Char)
  current_turn : Int
  whose_turn : List Char
  started : Bool := false
  finished : Bool := false
  winner : Option (List Char) := none
  winning_line : Option (List Nat) := none
deriving DecidableEq, Repr

/-- The `games` dict of `TicTacToeManager`. -/
abbrev TTTManager := List (List Char × TicTacToeGame)

/-- `TicTacToeManager.create_game`: the inviter keeps the chosen symbol, the
invitee gets `"O"` when that symbol is `"X"` and `"X"` otherwise; X always
goes first.  Returns the game together with the updated manager. -/
def create_game (games : TTTManager) (game_id inviter invitee inviter_symbol : List Char) :
    TicTacToeGame × TTTManager :=
  let invitee_symbol := if inviter_symbol = cs "X" then cs "O" else cs "X"
  let game : TicTacToeGame :=
    { game_id := game_id
      player1 := inviter
      player2 := invitee
      player1_symbol := inviter_symbol
      player2_symbol := invitee_symbol
      board := List.replicate 9 []
      current_turn := 1
      whose_turn := if inviter_symbol = cs "X" then inviter else invitee }
  (game, pyDictSet games game_id game)

/-- The 8 winning triples of `TicTacToeManager._check_winner`. -/
def winLines : List (List Nat) :=
  [[0, 1, 2], [3, 4, 5], [6, 7, 8],
   [0, 3, 6], [1, 4, 7], [2, 5, 8],
   [0, 4, 8], [2, 4, 6]]

/-- The per-line test of `_check_winner`: three equal non-empty cells. -/
def lineWins (board : List (List Char)) (ln : List Nat) : Bool :=
  let s := ln.map fun i => board.getD i []
  !(s.getD 0 []).isEmpty && s.getD 0 [] == s.getD 1 [] && s.getD 1 [] == s.getD 2 []

/-- `TicTacToeManager._check_winner`: first winning line in order, else a
draw when the board is full, else nothing. -/
def check_winner (board : List (List Char)) :
    Option (List Char) × Option (List Nat) :=
  match winLines.find? (lineWins board) with
  | some ln => (some (board.getD (ln.getD 0 0) []), some ln)
  | none =>
    if board.all (fun p => !p.isEmpty) then (some (cs "DRAW"), none)
    else (none, none)

/-- The game record after an accepted move of `make_move`: write the symbol
into the cell, advance the turn counter, mark started, flip `whose_turn` to
the other player, then evaluate `_check_winner` on the new board and record
the terminal state. -/
def movedGame (g : TicTacToeGame) (player : List Char) (position : Int)
    (symbol : List Char) : TicTacToeGame :=
  let board' := g.board.set position.toNat symbol
  let moved : TicTacToeGame :=
    { g with
      board := board'
      current_turn := g.current_turn + 1
      started := true
      whose_turn := if player = g.player1 then g.player2 else g.player1 }
  match check_winner board' with
  | (some w, wl) =>
    -- Python: `if winner:` (a non-empty string; `_check_winner` never yields
    -- an empty one, the test is kept for faithfulness)
    if w.isEmpty then moved
    else
      { moved with
        finished := true
        winner :=
          if w = cs "DRAW" then some (cs "DRAW")
          else some (if w = moved.player1_symbol then moved.player1 else moved.player2)
        winning_line := if w = cs "DRAW" then moved.winning_line else wl }
  | (none, _) => moved

/-- `TicTacToeManager.make_move`.  Python mutates `self.games` and returns
`(success, message)`; the model returns `(success, message, games')`. -/
def make_move (games : TTTManager) (game_id player : List Char) (position : Int)
    (symbol : List Char) (turn : Int) : Bool × List Char × TTTManager :=
  match pyDictGet games game_id with
  | none => (false, cs "Game not found", games)
  | some game =>
    if game.finished then (false, cs "Game already finished", games)
    else if ¬(player = game.player1 ∨ player = game.player2) then
      (false, cs "Player not in this game", games)
    else if player ≠ game.whose_turn then (false, cs "Not your turn", games)
    else if turn ≠ game.current_turn then
      (false, cs "Invalid turn number, expected " ++ intToStr game.current_turn, games)
    else if symbol ≠ (if player = game.player1 then game.player1_symbol
                      else game.player2_symbol) then
      (false, cs "Wrong symbol, expected " ++
        (if player = game.player1 then game.player1_symbol
         else game.player2_symbol), games)
    else if position < 0 ∨ position > 8 then (false, cs "Invalid position", games)
    else if game.board.getD position.toNat [] ≠ [] then
      (false, cs "Position already occupied", games)
    else
      (true, cs "Move successful",
        pyDictSet games game_id (movedGame game player position symbol))

/-- One requested move, as delivered to `make_move`. -/
structure MoveReq where
  game_id : List Char
  player : List Char
  position : Int
  symbol : List Char
  turn : Int
deriving DecidableEq, Repr

/-- Apply a list of move requests, counting how many were accepted. -/
def run_moves (games : TTTManager) : List MoveReq → TTTManager × Nat
  | [] => (games, 0)
  | r :: rs =>
    let res := make_move games r.game_id r.player r.position r.symbol r.turn
    let rest := run_moves res.2.2 rs
    (rest.1, (if res.1 then 1 else 0) + rest.2)

example :
    (let m1 := (create_game [] (cs "g1") (cs "alice") (cs "bob") (cs "X")).2
     run_moves m1
       [⟨cs "g1", cs "alice", 0, cs "X", 1⟩,
        ⟨cs "g1", cs "bob", 4, cs "O", 2⟩,
        ⟨cs "g1", cs "alice", 4, cs "X", 3⟩]).2 = 2 := by
  decide

example :
    (let m1 := (create_game [] (cs "g1") (cs "alice") (cs "bob") (cs "O")).2
     (pyDictGet (run_moves m1 [⟨cs "g1", cs "bob", 0, cs "X", 1⟩]).1 (cs "g1")).map
       TicTacToeGame.whose_turn) = some (cs "alice") := by
  decide

/-! ## node.py: the file-transfer reassembler -/

/-- One entry of `Node._file_buffers` (chunk payloads are byte lists; the
`save_path` recorded after a successful save is modelled as the chosen
filename — the filesystem collision-renaming loop is I/O and outside the
model). -/
structure FileBuffer where
  fromU : List Char
  toU : List Char
  filename : List Char
  filesize : Option Int
  filetype : List Char
  total_chunks : Option Int
  chunks : List (Int × List Nat)
  received_count : Nat
  save_path : Option (List Char)
deriving DecidableEq, Repr

/-- Python truthiness of `buf['total_chunks']` (None or 0 are falsy). -/
def truthyTotal : Option Int → Bool
  | none => false
  | some t => !(t == 0)

/-- `Node._handle_file_offer`, after the kv fields are extracted: registers
a fresh buffer for the transfer (replacing any previous one). -/
def handle_file_offer (bufs : List (List Char × FileBuffer))
    (file_id from_uid to_uid filename : List Char) (filesize : Int)
    (filetype : List Char) : List (List Char × FileBuffer) :=
  pyDictSet bufs file_id
    { fromU := from_uid, toU := to_uid, filename := filename,
      filesize := some filesize, filetype := filetype, total_chunks := none,
      chunks := [], received_count := 0, save_path := none }

/-- `Node._handle_file_chunk`, after the kv fields are extracted and the
base64 payload decoded: store the chunk, update the count, record the total
the first time it is observed, and if all indices `0..total-1` are present
assemble the payload, record the save path and report completion (the event
is the `FILE_RECEIVED` reply target together with the assembled bytes; file
writing is assumed to succeed). -/
def handle_file_chunk (bufs : List (List Char × FileBuffer))
    (file_id from_uid to_uid : List Char) (idx total : Int)
    (chunk : List Nat) :
    List (List Char × FileBuffer) × Option (List Char × List Nat) :=
  let buf :=
    match pyDictGet bufs file_id with
    | some b => b
    | none =>
      { fromU := from_uid, toU := to_uid, filename := file_id ++ cs ".bin",
        filesize := none, filetype := cs "application/octet-stream",
        total_chunks := none, chunks := [], received_count := 0,
        save_path := none }
  let chunks' := pyDictSet buf.chunks idx chunk
  let total' := if truthyTotal buf.total_chunks then buf.total_chunks else some total
  let buf' : FileBuffer :=
    { buf with chunks := chunks', received_count := chunks'.length,
               total_chunks := total' }
  if truthyTotal total' ∧ (chunks'.length : Int) ≥ total'.getD 0 then
    let tn := (total'.getD 0).toNat
    let ordered := (List.range tn).map fun i => (pyDictGet chunks' (i : Int)).getD []
    if (List.range tn).any (fun i =>
        ((pyDictGet chunks' (i : Int)).getD []).isEmpty
          && (pyDictGet chunks' (i : Int)).isNone) then
      (pyDictSet bufs file_id buf', none)  -- missing chunks
    else
      let data := ordered.flatten
      let buf2 := { buf' with save_path := some buf'.filename }
      (pyDictSet bufs file_id buf2, some (buf'.fromU, data))
  else
    (pyDictSet bufs file_id buf', none)

/-- Deliver a list of `(index, payload)` chunks for one transfer, collecting
the completion reports in order. -/
def run_chunks (bufs : List (List Char × FileBuffer))
    (file_id from_uid to_uid : List Char) (total : Int) :
    List (Int × List Nat) →
      List (List Char × FileBuffer) × List (List Char × List Nat)
  | [] => (bufs, [])
  | d :: ds =>
    let res := handle_file_chunk bufs file_id from_uid to_uid d.1 total d.2
    let rest := run_chunks res.1 file_id from_uid to_uid total ds
    (rest.1, res.2.toList ++ rest.2)

example :
    (run_chunks (handle_file_offer [] (cs "f1") (cs "a@1") (cs "b@2") (cs "pic.png") 3 (cs "image/png"))
      (cs "f1") (cs "a@1") (cs "b@2") 3
      [(1, [10]), (2, [20]), (0, [0, 5])]).2 = [(cs "a@1", [0, 5, 10, 20])] := by
  decide

example :
    (run_chunks (handle_file_offer [] (cs "f1") (cs "a@1") (cs "b@2") (cs "pic.png") 3 (cs "image/png"))
      (cs "f1") (cs "a@1") (cs "b@2") 3
      [(1, [10]), (2, [20]), (0, [0]), (1, [10])]).2 =
      [(cs "a@1", [0, 10, 20]), (cs "a@1", [0, 10, 20])] := by
  decide

/-! ## state.py -/

/-- `AvatarData` of `state.py`. -/
structure AvatarData where
  mime_type : String
  encoding : String
  data : String
deriving DecidableEq, Repr

/-- `Peer` of `state.py` (`last_seen` is a timestamp passed explicitly). -/
structure Peer where
  user_id : String
  display_name : String
  status : String := ""
  last_seen : Nat
  avatar : Option AvatarData := none
deriving DecidableEq, Repr

/-- `MessageRecord` of `state.py`. -/
structure MessageRecord where
  type : String
  user_id : String
  content : String
  message_id : String
  timestamp : Nat
  expires_at : Option Nat := none
deriving DecidableEq, Repr

/-- One group entry: `{'name': str, 'members': set[str]}`; the member set is
modelled as a duplicate-free list (insertion adds only absent members). -/
structure GroupRec where
  name : String
  members : List String
deriving DecidableEq, Repr

/-- `LSNPState` of `state.py`. -/
structure LSNPState where
  peers : List (String × Peer) := []
  posts : List MessageRecord := []
  dms : List MessageRecord := []
  groups : List (String × GroupRec) := []
deriving DecidableEq, Repr

/-- Python truthiness of an optional-string argument (`None` and `""`
are falsy). -/
def truthyS : Option String → Bool
  | none => false
  | some s => !(s == "")

/-- `set.add`: insert if absent. -/
def setAdd (members : List String) (m : String) : List String :=
  if m ∈ members then members else members ++ [m]

/-- `set.discard`: remove if present. -/
def setDiscard (members : List String) (m : String) : List String :=
  members.filter fun x => !(x == m)

/-- `LSNPState.update_peer`.  An avatar object is built only when all three
avatar arguments are truthy (the `try/except` around the dataclass
constructor can never fire); an existing peer keeps its old display name or
status when the new one is empty, and its avatar is reassigned only when the
avatar triple was fully supplied. -/
def update_peer (st : LSNPState) (user_id display_name status : String)
    (avatar_type avatar_encoding avatar_data : Option String) (now : Nat) :
    LSNPState :=
  let avatar : Option AvatarData :=
    if truthyS avatar_type && truthyS avatar_encoding && truthyS avatar_data then
      some ⟨avatar_type.getD "", avatar_encoding.getD "", avatar_data.getD ""⟩
    else none
  match pyDictGet st.peers user_id with
  | some p =>
    let p' : Peer :=
      { p with
        display_name := if display_name == "" then p.display_name else display_name
        status := if status == "" then p.status else status
        last_seen := now
        avatar :=
          if avatar.isSome
              || (truthyS avatar_type && truthyS avatar_encoding && truthyS avatar_data) then
            avatar
          else p.avatar }
    { st with peers := pyDictSet st.peers user_id p' }
  | none =>
    { st with
      peers := pyDictSet st.peers user_id
        { user_id := user_id, display_name := display_name, status := status,
          last_seen := now, avatar := avatar } }

/-- `LSNPState.group_add_members`: create the group on first reference
(named after its id), then add each non-empty member. -/
def group_add_members (st : LSNPState) (group_id : String) (add : List String) :
    LSNPState :=
  let groups1 :=
    if (pyDictGet st.groups group_id).isNone then
      pyDictSet st.groups group_id { name := group_id, members := [] }
    else st.groups
  let groups2 :=
    add.foldl
      (fun gs m =>
        if m == "" then gs
        else
          match pyDictGet gs group_id with
          | some g => pyDictSet gs group_id { g with members := setAdd g.members m }
          | none => gs)
      groups1
  { st with groups := groups2 }

/-- `LSNPState.group_remove_members`: a no-op for an unknown group id, else
discard each listed member. -/
def group_remove_members (st : LSNPState) (group_id : String)
    (remove : List String) : LSNPState :=
  if (pyDictGet st.groups group_id).isNone then st
  else
    let groups2 :=
      remove.foldl
        (fun gs m =>
          match pyDictGet gs group_id with
          | some g => pyDictSet gs group_id { g with members := setDiscard g.members m }
          | none => gs)
        st.groups
    { st with groups := groups2 }

example :
    (group_add_members { : LSNPState } "g1" ["a", "", "b"]).groups =
      [("g1", { name := "g1", members := ["a", "b"] })] := by
  decide

example :
    group_remove_members { : LSNPState } "nope" ["a"] = { : LSNPState } := by
  decide

/-! ## Dictionary lemmas -/

theorem pyDictGet_set_self {α β : Type} [DecidableEq α] (m : List (α × β)) (k : α) (v : β) :
    pyDictGet (pyDictSet m k v) k = some v := by
  induction m with
  | nil => simp [pyDictGet, pyDictSet]
  | cons p rest ih =>
    by_cases h : p.1 = k
    · simp [pyDictSet, pyDictGet, h]
    · simp [pyDictSet, pyDictGet, h, ih]

theorem pyDictGet_set_ne {α β : Type} [DecidableEq α] (m : List (α × β)) (k k' : α) (v : β)
    (h : k ≠ k') : pyDictGet (pyDictSet m k v) k' = pyDictGet m k' := by
  induction m with
  | nil => simp [pyDictGet, pyDictSet, h]
  | cons p rest ih =>
    by_cases hp : p.1 = k
    · simp [pyDictSet, pyDictGet, hp, h]
    · simp only [pyDictSet, if_neg hp]
      by_cases hp' : p.1 = k'
      · simp [pyDictGet, hp']
      · simp [pyDictGet, hp', ih]

theorem pyDictSet_of_absent {α β : Type} [DecidableEq α] (m : List (α × β)) (k : α) (v : β)
    (h : pyDictGet m k = none) : pyDictSet m k v = m ++ [(k, v)] := by
  induction m with
  | nil => simp [pyDictSet]
  | cons p rest ih =>
    by_cases hp : p.1 = k
    · simp [pyDictGet, hp] at h
    · simp only [pyDictGet, if_neg hp] at h
      simp [pyDictSet, hp, ih h]

theorem pyDictGet_append_left {α β : Type} [DecidableEq α] (m m' : List (α × β)) (k : α)
    (h : pyDictGet m k = none) : pyDictGet (m ++ m') k = pyDictGet m' k := by
  induction m with
  | nil => simp
  | cons p rest ih =>
    by_cases hp : p.1 = k
    · simp [pyDictGet, hp] at h
    · simp only [pyDictGet, if_neg hp] at h
      simp [pyDictGet, if_neg hp, ih h]

theorem pyDictGet_eq_none_of_not_mem {α β : Type} [DecidableEq α] (m : List (α × β)) (k : α)
    (h : k ∉ m.map Prod.fst) : pyDictGet m k = none := by
  induction m with
  | nil => rfl
  | cons p rest ih =>
    simp only [List.map_cons, List.mem_cons] at h
    push_neg at h
    have hne : ¬p.1 = k := fun e => h.1 e.symm
    simp [pyDictGet, hne, ih h.2]

theorem pyDictSet_map_fst_of_mem {α β : Type} [DecidableEq α] (m : List (α × β)) (k : α) (v : β)
    (h : (pyDictGet m k).isSome) :
    (pyDictSet m k v).map Prod.fst = m.map Prod.fst := by
  induction m with
  | nil => simp [pyDictGet] at h
  | cons p rest ih =>
    by_cases hp : p.1 = k
    · simp [pyDictSet, hp]
    · simp only [pyDictGet, if_neg hp] at h
      simp [pyDictSet, hp, ih h]

/-! ## Group-table lemmas (state.py) -/

theorem group_fold_keeps_some (gid : String) (f : GroupRec → String → GroupRec) :
    ∀ (ms : List String) (gs : List (String × GroupRec)),
      (pyDictGet gs gid).isSome →
      (pyDictGet (ms.foldl
        (fun gs m =>
          if m == "" then gs
          else
            match pyDictGet gs gid with
            | some g => pyDictSet gs gid (f g m)
            | none => gs) gs) gid).isSome
  | [], gs, h => h
  | m :: ms, gs, h => by
    simp only [List.foldl_cons]
    apply group_fold_keeps_some gid f ms
    by_cases hm : m == ""
    · simpa [hm] using h
    · rcases hg : pyDictGet gs gid with _ | g
      · simp [hg] at h
      · simp [hm, hg, pyDictGet_set_self]

/-- Membership-removal fold of `group_remove_members` preserves the key list
of the group table. -/
theorem group_remove_fold_keys (gid : String) :
    ∀ (ms : List String) (gs : List (String × GroupRec)),
      (ms.foldl
        (fun gs m =>
          match pyDictGet gs gid with
          | some g => pyDictSet gs gid { g with members := setDiscard g.members m }
          | none => gs) gs).map Prod.fst = gs.map Prod.fst
  | [], _ => rfl
  | m :: ms, gs => by
    simp only [List.foldl_cons]
    rw [group_remove_fold_keys gid ms]
    rcases hg : pyDictGet gs gid with _ | g
    · rfl
    · exact pyDictSet_map_fst_of_mem _ _ _ (by simp [hg])

/-- C10: `group_remove_members` on an unknown group id is a no-op on the
whole state (no empty group is created); `group_add_members` on an unknown
group id first creates the group; and removal never deletes a group entry,
only members (the key list of the group table is unchanged). -/
theorem group_remove_noop_add_creates :
    (∀ (st : LSNPState) (gid : String) (rem : List String),
        pyDictGet st.groups gid = none → group_remove_members st gid rem = st) ∧
    (∀ (st : LSNPState) (gid : String) (adds : List String),
        (pyDictGet (group_add_members st gid adds).groups gid).isSome) ∧
    (∀ (st : LSNPState) (gid : String) (rem : List String),
        (group_remove_members st gid rem).groups.map Prod.fst =
          st.groups.map Prod.fst) := by
  refine ⟨?_, ?_, ?_⟩
  · intro st gid rem h
    simp [group_remove_members, h]
  · intro st gid adds
    have base : (pyDictGet
        (if (pyDictGet st.groups gid).isNone then
          pyDictSet st.groups gid { name := gid, members := [] }
        else st.groups) gid).isSome := by
      by_cases h : (pyDictGet st.groups gid).isNone
      · simp [h, pyDictGet_set_self]
      · rcases hg : pyDictGet st.groups gid with _ | g
        · simp [hg] at h
        · simp [h, hg]
    simpa [group_add_members] using
      group_fold_keeps_some gid
        (fun g m => { g with members := setAdd g.members m }) adds _ base
  · intro st gid rem
    unfold group_remove_members
    by_cases h : (pyDictGet st.groups gid).isNone
    · simp [h]
    · simp only [h, if_false]
      exact group_remove_fold_keys gid rem st.groups

/-- Closed instantiation of the hypotheses of the previous theorem. -/
theorem group_remove_noop_witness :
    pyDictGet ({ : LSNPState }).groups "g9" = none ∧
      group_remove_members { : LSNPState } "g9" ["a"] = { : LSNPState } :=
  ⟨by decide, group_remove_noop_add_creates.1 { : LSNPState } "g9" ["a"] (by decide)⟩

/-! ## Peer avatar behaviour (state.py) -/

/-- C8 (amended): for an existing peer, `update_peer` with absent avatar
arguments leaves the stored avatar untouched; but an explicitly empty
avatar triple, or an incomplete one, ALSO leaves it untouched — the stored
avatar is never cleared, only replaced when a complete non-empty avatar
triple is supplied. -/
theorem update_peer_avatar_retention
    (st : LSNPState) (uid dn ss : String) (p : Peer) (now : Nat)
    (hp : pyDictGet st.peers uid = some p) :
    ((pyDictGet (update_peer st uid dn ss none none none now).peers uid).map
        Peer.avatar = some p.avatar) ∧
    ((pyDictGet
        (update_peer st uid dn ss (some "") (some "") (some "") now).peers uid).map
        Peer.avatar = some p.avatar) ∧
    (∀ a, (pyDictGet
        (update_peer st uid dn ss (some a) none none now).peers uid).map
        Peer.avatar = some p.avatar) ∧
    (∀ a e d, a ≠ "" → e ≠ "" → d ≠ "" →
      (pyDictGet
          (update_peer st uid dn ss (some a) (some e) (some d) now).peers uid).map
          Peer.avatar = some (some ⟨a, e, d⟩)) := by
  refine ⟨?_, ?_, ?_, ?_⟩
  · simp [update_peer, hp, truthyS, pyDictGet_set_self]
  · simp [update_peer, hp, truthyS, pyDictGet_set_self]
  · intro a
    simp [update_peer, hp, truthyS, pyDictGet_set_self]
  · intro a e d ha he hd
    simp [update_peer, hp, truthyS, ha, he, hd, pyDictGet_set_self]

/-- Closed instantiation of `update_peer_avatar_retention`: an update with
no avatar arguments leaves the stored avatar in place. -/
theorem update_peer_avatar_retention_witness :
    (pyDictGet
      (update_peer
        { peers := [("u@1", { user_id := "u@1", display_name := "U", status := "",
                              last_seen := 0,
                              avatar := some ⟨"image/png", "base64", "QUJD"⟩ })] }
        "u@1" "Name" "St" none none none 5).peers "u@1").map Peer.avatar =
      some (some ⟨"image/png", "base64", "QUJD"⟩) :=
  (update_peer_avatar_retention
    { peers := [("u@1", { user_id := "u@1", display_name := "U", status := "",
                          last_seen := 0,
                          avatar := some ⟨"image/png", "base64", "QUJD"⟩ })] }
    "u@1" "Name" "St"
    { user_id := "u@1", display_name := "U", status := "", last_seen := 0,
      avatar := some ⟨"image/png", "base64", "QUJD"⟩ } 5 (by decide)).1

/-- C8 counterexample: with an existing peer holding an avatar, calling
`update_peer` with an explicitly empty avatar triple does NOT clear the
avatar — the stored avatar survives unchanged, contradicting the claim that
an empty/invalid avatar clears it. -/
theorem update_peer_empty_avatar_not_cleared :
    (pyDictGet
      (update_peer
        { peers := [("u@1", { user_id := "u@1", display_name := "U", status := "",
                              last_seen := 0,
                              avatar := some ⟨"image/png", "base64", "QUJD"⟩ })] }
        "u@1" "Name" "St" (some "") (some "") (some "") 5).peers "u@1").map Peer.avatar =
      some (some ⟨"image/png", "base64", "QUJD"⟩) := by
  decide

/-! ## Game termination (tictactoe.py) -/

/-- C5: termination scans the 8 fixed triples.  The board with `X` in cells
0,1,2 and all other cells empty yields the symbol `X` with winning line
`[0,1,2]`, and an accepted move producing that board finishes the game with
the X-holding player as winner and that line recorded; a full board with no
three equal non-empty cells yields a draw, and an accepted move producing it
finishes the game with the `"DRAW"` marker and no winning line. -/
theorem check_winner_row_and_draw :
    check_winner [cs "X", cs "X", cs "X", [], [], [], [], [], []] =
      (some (cs "X"), some [0, 1, 2]) ∧
    make_move
      [(cs "g", { game_id := cs "g", player1 := cs "alice", player2 := cs "bob",
                  player1_symbol := cs "X", player2_symbol := cs "O",
                  board := [cs "X", cs "X", [], [], [], [], [], [], []],
                  current_turn := 1, whose_turn := cs "alice" })]
      (cs "g") (cs "alice") 2 (cs "X") 1 =
      (true, cs "Move successful",
        [(cs "g", { game_id := cs "g", player1 := cs "alice", player2 := cs "bob",
                    player1_symbol := cs "X", player2_symbol := cs "O",
                    board := [cs "X", cs "X", cs "X", [], [], [], [], [], []],
                    current_turn := 2, whose_turn := cs "bob", started := true,
                    finished := true, winner := some (cs "alice"),
                    winning_line := some [0, 1, 2] })]) ∧
    check_winner [cs "X", cs "X", cs "O", cs "O", cs "O", cs "X",
                  cs "X", cs "O", cs "X"] = (some (cs "DRAW"), none) ∧
    make_move
      [(cs "g", { game_id := cs "g", player1 := cs "alice", player2 := cs "bob",
                  player1_symbol := cs "X", player2_symbol := cs "O",
                  board := [cs "X", cs "X", cs "O", cs "O", cs "O", cs "X",
                            cs "X", cs "O", []],
                  current_turn := 9, whose_turn := cs "alice" })]
      (cs "g") (cs "alice") 8 (cs "X") 9 =
      (true, cs "Move successful",
        [(cs "g", { game_id := cs "g", player1 := cs "alice", player2 := cs "bob",
                    player1_symbol := cs "X", player2_symbol := cs "O",
                    board := [cs "X", cs "X", cs "O", cs "O", cs "O", cs "X",
                              cs "X", cs "O", cs "X"],
                    current_turn := 10, whose_turn := cs "bob", started := true,
                    finished := true, winner := some (cs "DRAW"),
                    winning_line := none })]) := by
  refine ⟨by decide, by decide, by decide, by decide⟩

/-! ## The decoder's defaulting branches are unreachable (messages.py) -/

/-- C7: a POST without TTL, a DM without TIMESTAMP, and a game-invite or
game-result without TIMESTAMP are all rejected by the required-field check
before the defaulting code runs — no decoded record ever receives the TTL
or TIMESTAMP default (the result never depends on the current time `now`). -/
theorem parse_defaults_unreachable (now : Nat) :
    parse_message (cs "TYPE: POST\nUSER_ID: u@1\nCONTENT: hi\nMESSAGE_ID: m1\nTOKEN: u@1|1|broadcast\n\n") now =
      .error (.missingFields (cs "POST") [cs "TTL"]) ∧
    parse_message (cs "TYPE: DM\nFROM: a@1\nTO: b@2\nCONTENT: hi\nMESSAGE_ID: m2\nTOKEN: a@1|1|chat\n\n") now =
      .error (.missingFields (cs "DM") [cs "TIMESTAMP"]) ∧
    parse_message (cs "TYPE: TICTACTOE_INVITE\nFROM: a@1\nTO: b@2\nGAMEID: g1\nMESSAGE_ID: m3\nSYMBOL: X\nTOKEN: a@1|1|game\n\n") now =
      .error (.missingFields (cs "TICTACTOE_INVITE") [cs "TIMESTAMP"]) ∧
    parse_message (cs "TYPE: TICTACTOE_RESULT\nFROM: a@1\nTO: b@2\nGAMEID: g1\nMESSAGE_ID: m4\nRESULT: WIN\nSYMBOL: X\n\n") now =
      .error (.missingFields (cs "TICTACTOE_RESULT") [cs "TIMESTAMP"]) :=
  ⟨rfl, rfl, rfl, rfl⟩

/-! ## File reassembly (node.py) -/

/-- Delivering a chunk at an index other than 0 while chunk 0 is still
missing can never complete the transfer: either the count is short, or the
missing-index scan finds index 0 absent. -/
theorem hfc_no_zero (bufs : List (List Char × FileBuffer)) (fid fu tu : List Char)
    (idx : Int) (chunk : List Nat) (b : FileBuffer)
    (hb : pyDictGet bufs fid = some b) (hidx : idx ≠ 0)
    (h0 : pyDictGet b.chunks 0 = none)
    (htot : b.total_chunks = none ∨ b.total_chunks = some 3) :
    handle_file_chunk bufs fid fu tu idx 3 chunk =
      (pyDictSet bufs fid
        { b with chunks := pyDictSet b.chunks idx chunk,
                 received_count := (pyDictSet b.chunks idx chunk).length,
                 total_chunks := some 3 }, none) := by
  have h0' : pyDictGet (pyDictSet b.chunks idx chunk) 0 = none := by
    rw [pyDictGet_set_ne _ _ _ _ hidx]; exact h0
  have htot' : (if truthyTotal b.total_chunks then b.total_chunks else some 3) = some 3 := by
    rcases htot with h | h <;> simp [h, truthyTotal]
  unfold handle_file_chunk
  rw [hb]
  simp only [htot']
  by_cases hcond : truthyTotal (some 3) ∧
      ((pyDictSet b.chunks idx chunk).length : Int) ≥ (some (3 : Int)).getD 0
  · rw [if_pos hcond, if_pos]
    refine List.any_eq_true.mpr ⟨0, ?_, ?_⟩
    · simp
    · simp [h0']
  · rw [if_neg hcond]

/-- A sequence of chunk deliveries all at indices 1 or 2 (in any order, with
any repetitions) never produces a completion report when the declared total
is 3. -/
theorem run_chunks_no_zero :
    ∀ (ds : List (Int × List Nat)) (bufs : List (List Char × FileBuffer))
      (fid fu tu : List Char) (b : FileBuffer),
      (∀ d ∈ ds, d.1 = 1 ∨ d.1 = 2) →
      pyDictGet bufs fid = some b →
      pyDictGet b.chunks 0 = none →
      (b.total_chunks = none ∨ b.total_chunks = some 3) →
      (run_chunks bufs fid fu tu 3 ds).2 = []
  | [], _, _, _, _, _, _, _, _, _ => rfl
  | d :: ds, bufs, fid, fu, tu, b, hds, hb, h0, htot => by
    have hd1 : d.1 = 1 ∨ d.1 = 2 := hds d (List.mem_cons_self d ds)
    have hdne : d.1 ≠ 0 := by rcases hd1 with h | h <;> simp [h]
    have hstep := hfc_no_zero bufs fid fu tu d.1 d.2 b hb hdne h0 htot
    rw [run_chunks, hstep]
    simp only [Option.toList_none, List.nil_append]
    exact run_chunks_no_zero ds _ fid fu tu _
      (fun r hr => hds r (List.mem_cons_of_mem d hr))
      (pyDictGet_set_self _ _ _)
      (by rw [pyDictGet_set_ne _ _ _ _ hdne]; exact h0)
      (Or.inr rfl)

/-- A list permuting an explicit three-element list is one of its six
orderings. -/
theorem perm_three {α : Type} (a b c : α) (ds : List α) (h : ds.Perm [a, b, c]) :
    ds = [a, b, c] ∨ ds = [a, c, b] ∨ ds = [b, a, c] ∨ ds = [b, c, a] ∨
      ds = [c, a, b] ∨ ds = [c, b, a] := by
  have hlen : ds.length = 3 := by simpa using h.length_eq
  obtain ⟨x, y, z, rfl⟩ : ∃ x y z, ds = [x, y, z] := by
    match ds, hlen with
    | [x, y, z], _ => exact ⟨x, y, z, rfl⟩
  have swap1 : ([a, b, c] : List α).Perm [b, a, c] := List.Perm.swap b a [c]
  have swap2 : ([a, b, c] : List α).Perm [c, b, a] := by
    refine (List.Perm.swap b a [c]).trans ?_
    refine (List.Perm.cons b (List.Perm.swap c a [])).trans ?_
    exact List.Perm.swap c b [a]
  have hx3 : x = a ∨ x = b ∨ x = c := by
    simpa using h.subset (show x ∈ [x, y, z] by simp)
  rcases hx3 with hxa | hxb | hxc
  · have h2 : [y, z].Perm [b, c] := by
      rw [hxa] at h; exact h.cons_inv
    have hy : y = b ∨ y = c := by
      simpa using h2.subset (show y ∈ [y, z] by simp)
    rcases hy with hyb | hyc
    · have h3 : z = c := by
        rw [hyb] at h2
        simpa [List.perm_singleton] using h2.cons_inv
      exact Or.inl (by rw [hxa, hyb, h3])
    · have h3 : z = b := by
        have h2' : [y, z].Perm [c, b] := h2.trans (List.Perm.swap c b [])
        rw [hyc] at h2'
        simpa [List.perm_singleton] using h2'.cons_inv
      exact Or.inr (Or.inl (by rw [hxa, hyc, h3]))
  · have h2 : [y, z].Perm [a, c] := by
      have h' := h.trans swap1
      rw [hxb] at h'
      exact h'.cons_inv
    have hy : y = a ∨ y = c := by
      simpa using h2.subset (show y ∈ [y, z] by simp)
    rcases hy with hya | hyc
    · have h3 : z = c := by
        rw [hya] at h2
        simpa [List.perm_singleton] using h2.cons_inv
      exact Or.inr (Or.inr (Or.inl (by rw [hxb, hya, h3])))
    · have h3 : z = a := by
        have h2' : [y, z].Perm [c, a] := h2.trans (List.Perm.swap c a [])
        rw [hyc] at h2'
        simpa [List.perm_singleton] using h2'.cons_inv
      exact Or.inr (Or.inr (Or.inr (Or.inl (by rw [hxb, hyc, h3]))))
  · have h2 : [y, z].Perm [b, a] := by
      have h' := h.trans swap2
      rw [hxc] at h'
      exact h'.cons_inv
    have hy : y = b ∨ y = a := by
      simpa using h2.subset (show y ∈ [y, z] by simp)
    rcases hy with hyb | hya
    · have h3 : z = a := by
        rw [hyb] at h2
        simpa [List.perm_singleton] using h2.cons_inv
      exact Or.inr (Or.inr (Or.inr (Or.inr (Or.inr (by rw [hxc, hyb, h3])))))
    · have h3 : z = b := by
        have h2' : [y, z].Perm [a, b] := h2.trans (List.Perm.swap a b [])
        rw [hya] at h2'
        simpa [List.perm_singleton] using h2'.cons_inv
      exact Or.inr (Or.inr (Or.inr (Or.inr (Or.inl (by rw [hxc, hya, h3])))))

/-- C2 (amended): after a file offer, delivering chunks only at indices 1
and 2 (any order, any repetitions) with declared total 3 never produces a
completion report; delivering indices 0,1,2 in any arrival order produces a
completion exactly on the delivery completing the set, and the assembled
payload is the concatenation of the chunk payloads in index order 0,1,2;
but the transfer is NOT immutable afterwards: re-delivering a chunk after
completion triggers the completion report a second time. -/
theorem file_reassembly_completion (bufs0 : List (List Char × FileBuffer))
    (fid fu tu fn ft : List Char) (fs : Int) (c0 c1 c2 : List Nat)
    (ds : List (Int × List Nat)) :
    ((∀ d ∈ ds, d.1 = 1 ∨ d.1 = 2) →
      (run_chunks (handle_file_offer bufs0 fid fu tu fn fs ft) fid fu tu 3 ds).2 = []) ∧
    (ds.Perm [(0, c0), (1, c1), (2, c2)] →
      (run_chunks (handle_file_offer bufs0 fid fu tu fn fs ft) fid fu tu 3 ds).2 =
        [(fu, c0 ++ c1 ++ c2)]) ∧
    (ds.Perm [(0, c0), (1, c1), (2, c2)] →
      (run_chunks (handle_file_offer bufs0 fid fu tu fn fs ft) fid fu tu 3
        (ds ++ [(0, c0)])).2 =
        [(fu, c0 ++ c1 ++ c2), (fu, c0 ++ c1 ++ c2)]) := by
  refine ⟨?_, ?_, ?_⟩
  · intro hds
    refine run_chunks_no_zero ds _ fid fu tu
      { fromU := fu, toU := tu, filename := fn, filesize := some fs, filetype := ft,
        total_chunks := none, chunks := [], received_count := 0, save_path := none }
      hds ?_ rfl (Or.inl rfl)
    simp [handle_file_offer, pyDictGet_set_self]
  · intro hp
    rcases perm_three _ _ _ _ hp with rfl | rfl | rfl | rfl | rfl | rfl <;>
      simp [run_chunks, handle_file_chunk, handle_file_offer, pyDictGet_set_self,
        pyDictSet, pyDictGet, truthyTotal, List.range_succ]
  · intro hp
    rcases perm_three _ _ _ _ hp with rfl | rfl | rfl | rfl | rfl | rfl <;>
      simp [run_chunks, handle_file_chunk, handle_file_offer, pyDictGet_set_self,
        pyDictSet, pyDictGet, truthyTotal, List.range_succ]

/-- Closed instantiation of `file_reassembly_completion`. -/
theorem file_reassembly_completion_witness :
    (run_chunks (handle_file_offer [] (cs "f") (cs "a@1") (cs "b@2") (cs "p.bin") 3 (cs "t"))
      (cs "f") (cs "a@1") (cs "b@2") 3 [(1, [10]), (2, [20]), (0, [5])]).2 =
      [(cs "a@1", [5, 10, 20])] :=
  (file_reassembly_completion [] (cs "f") (cs "a@1") (cs "b@2") (cs "p.bin") (cs "t")
      3 [5] [10] [20] [(1, [10]), (2, [20]), (0, [5])]).2.1 (by decide)

/-- C2 counterexample: completion is not reported exactly once — after the
transfer completes, re-delivering chunk 0 makes the handler assemble, save
and report completion a second time (nothing marks the transfer done). -/
theorem file_reassembly_double_completion :
    (run_chunks (handle_file_offer [] (cs "f") (cs "a@1") (cs "b@2") (cs "p.bin") 3 (cs "t"))
      (cs "f") (cs "a@1") (cs "b@2") 3 [(0, [1]), (1, [2]), (2, [3]), (0, [1])]).2 =
      [(cs "a@1", [1, 2, 3]), (cs "a@1", [1, 2, 3])] := by
  decide

/-! ## Decimal rendering facts -/

theorem natToStrCore_ne_nil (fuel n : Nat) (h : fuel ≠ 0) : natToStrCore fuel n ≠ [] := by
  cases fuel with
  | zero => exact absurd rfl h
  | succ f =>
    unfold natToStrCore
    split
    · simp
    · simp

theorem natToStr_ne_nil (n : Nat) : natToStr n ≠ [] :=
  natToStrCore_ne_nil _ _ (by simp)

theorem intToStr_ne_nil (i : Int) : intToStr i ≠ [] := by
  unfold intToStr
  split
  · simp
  · exact natToStr_ne_nil _

theorem intToStr_length_pos (i : Int) : 1 ≤ (intToStr i).length :=
  List.length_pos.mpr (intToStr_ne_nil i)

/-- The turn-mismatch reason can never coincide with any reason string of
fewer than 31 characters, whatever the turn counter reads. -/
theorem turn_reason_ne (t : Int) (l : List Char) (h : l.length < 31) :
    cs "Invalid turn number, expected " ++ intToStr t ≠ l := by
  intro e
  have hlen : (cs "Invalid turn number, expected ").length + (intToStr t).length
      = l.length := by simpa using congrArg List.length e
  have h30 : (cs "Invalid turn number, expected ").length = 30 := by decide
  have := intToStr_length_pos t
  omega

/-! ## Move rejection behaviour (tictactoe.py) -/


/-! ## Move guard characterizations (tictactoe.py) -/

theorem make_move_unknown (games : TTTManager) (gid player : List Char)
    (pos : Int) (sym : List Char) (t : Int) (hg : pyDictGet games gid = none) :
    make_move games gid player pos sym t = (false, cs "Game not found", games) := by
  unfold make_move
  rw [hg]

theorem make_move_finished (games : TTTManager) (gid player : List Char)
    (pos : Int) (sym : List Char) (t : Int) (g : TicTacToeGame)
    (hg : pyDictGet games gid = some g) (hf : g.finished = true) :
    make_move games gid player pos sym t = (false, cs "Game already finished", games) := by
  unfold make_move
  rw [hg]
  simp only [hf, if_true]

theorem make_move_notin (games : TTTManager) (gid player : List Char)
    (pos : Int) (sym : List Char) (t : Int) (g : TicTacToeGame)
    (hg : pyDictGet games gid = some g) (hf : g.finished = false)
    (hin : ¬(player = g.player1 ∨ player = g.player2)) :
    make_move games gid player pos sym t = (false, cs "Player not in this game", games) := by
  unfold make_move
  rw [hg]
  simp only [hf, Bool.false_eq_true, if_false]
  rw [if_pos hin]

theorem make_move_notturn (games : TTTManager) (gid player : List Char)
    (pos : Int) (sym : List Char) (t : Int) (g : TicTacToeGame)
    (hg : pyDictGet games gid = some g) (hf : g.finished = false)
    (hin : player = g.player1 ∨ player = g.player2) (hwt : player ≠ g.whose_turn) :
    make_move games gid player pos sym t = (false, cs "Not your turn", games) := by
  unfold make_move
  rw [hg]
  simp only [hf, Bool.false_eq_true, if_false]
  rw [if_neg (not_not_intro hin), if_pos hwt]

theorem make_move_badturn (games : TTTManager) (gid player : List Char)
    (pos : Int) (sym : List Char) (t : Int) (g : TicTacToeGame)
    (hg : pyDictGet games gid = some g) (hf : g.finished = false)
    (hin : player = g.player1 ∨ player = g.player2) (hwt : player = g.whose_turn)
    (ht : t ≠ g.current_turn) :
    make_move games gid player pos sym t =
      (false, cs "Invalid turn number, expected " ++ intToStr g.current_turn, games) := by
  unfold make_move
  rw [hg]
  simp only [hf, Bool.false_eq_true, if_false]
  rw [if_neg (not_not_intro hin), if_neg (not_not_intro hwt), if_pos ht]

theorem make_move_badsymbol (games : TTTManager) (gid player : List Char)
    (pos : Int) (sym : List Char) (t : Int) (g : TicTacToeGame)
    (hg : pyDictGet games gid = some g) (hf : g.finished = false)
    (hin : player = g.player1 ∨ player = g.player2) (hwt : player = g.whose_turn)
    (ht : t = g.current_turn)
    (hs : sym ≠ (if player = g.player1 then g.player1_symbol else g.player2_symbol)) :
    make_move games gid player pos sym t =
      (false, cs "Wrong symbol, expected " ++
        (if player = g.player1 then g.player1_symbol else g.player2_symbol), games) := by
  unfold make_move
  rw [hg]
  simp only [hf, Bool.false_eq_true, if_false]
  rw [if_neg (not_not_intro hin), if_neg (not_not_intro hwt),
    if_neg (not_not_intro ht), if_pos hs]

theorem make_move_badpos (games : TTTManager) (gid player : List Char)
    (pos : Int) (sym : List Char) (t : Int) (g : TicTacToeGame)
    (hg : pyDictGet games gid = some g) (hf : g.finished = false)
    (hin : player = g.player1 ∨ player = g.player2) (hwt : player = g.whose_turn)
    (ht : t = g.current_turn)
    (hs : sym = (if player = g.player1 then g.player1_symbol else g.player2_symbol))
    (hp : pos < 0 ∨ pos > 8) :
    make_move games gid player pos sym t = (false, cs "Invalid position", games) := by
  unfold make_move
  rw [hg]
  simp only [hf, Bool.false_eq_true, if_false]
  rw [if_neg (not_not_intro hin), if_neg (not_not_intro hwt),
    if_neg (not_not_intro ht), if_neg (not_not_intro hs), if_pos hp]

theorem make_move_occupied (games : TTTManager) (gid player : List Char)
    (pos : Int) (sym : List Char) (t : Int) (g : TicTacToeGame)
    (hg : pyDictGet games gid = some g) (hf : g.finished = false)
    (hin : player = g.player1 ∨ player = g.player2) (hwt : player = g.whose_turn)
    (ht : t = g.current_turn)
    (hs : sym = (if player = g.player1 then g.player1_symbol else g.player2_symbol))
    (hp : ¬(pos < 0 ∨ pos > 8)) (hocc : g.board.getD pos.toNat [] ≠ []) :
    make_move games gid player pos sym t = (false, cs "Position already occupied", games) := by
  unfold make_move
  rw [hg]
  simp only [hf, Bool.false_eq_true, if_false]
  rw [if_neg (not_not_intro hin), if_neg (not_not_intro hwt),
    if_neg (not_not_intro ht), if_neg (not_not_intro hs), if_neg hp, if_pos hocc]

theorem make_move_accepted (games : TTTManager) (gid player : List Char)
    (pos : Int) (sym : List Char) (t : Int) (g : TicTacToeGame)
    (hg : pyDictGet games gid = some g) (hf : g.finished = false)
    (hin : player = g.player1 ∨ player = g.player2) (hwt : player = g.whose_turn)
    (ht : t = g.current_turn)
    (hs : sym = (if player = g.player1 then g.player1_symbol else g.player2_symbol))
    (hp : ¬(pos < 0 ∨ pos > 8)) (hocc : g.board.getD pos.toNat [] = []) :
    make_move games gid player pos sym t =
      (true, cs "Move successful",
        pyDictSet games gid (movedGame g player pos sym)) := by
  unfold make_move
  rw [hg]
  simp only [hf, Bool.false_eq_true, if_false]
  rw [if_neg (not_not_intro hin), if_neg (not_not_intro hwt),
    if_neg (not_not_intro ht), if_neg (not_not_intro hs), if_neg hp,
    if_neg (not_not_intro hocc)]

/-- The fields of the game record that an accepted move always produces,
whatever the termination evaluation decides. -/
theorem movedGame_fields (g : TicTacToeGame) (player : List Char) (pos : Int)
    (sym : List Char) :
    (movedGame g player pos sym).current_turn = g.current_turn + 1 ∧
    (movedGame g player pos sym).whose_turn =
      (if player = g.player1 then g.player2 else g.player1) ∧
    (movedGame g player pos sym).player1 = g.player1 ∧
    (movedGame g player pos sym).player2 = g.player2 ∧
    (movedGame g player pos sym).player1_symbol = g.player1_symbol ∧
    (movedGame g player pos sym).player2_symbol = g.player2_symbol := by
  unfold movedGame
  rcases hcw : check_winner (g.board.set pos.toNat sym) with ⟨w, wl⟩
  cases w with
  | none => simp [hcw]
  | some w =>
    by_cases hw : w = [] <;> simp [hcw, hw]

/-- C4: every rejected `make_move` call leaves the game table completely
unchanged; each rejection cause yields its own reason string (characterized
per guard by `make_move_unknown` .. `make_move_occupied`, restated here);
once `finished` is true every call on that game is rejected; and the eight
reason strings are pairwise distinct (the parametrized turn and symbol
reasons, with the protocol symbols `X`/`O`, never collide with any other). -/
theorem make_move_reject_no_side_effects (games : TTTManager)
    (gid player : List Char) (pos : Int) (sym : List Char) (t : Int) :
    ((make_move games gid player pos sym t).1 = false →
      (make_move games gid player pos sym t).2.2 = games) ∧
    (∀ g, pyDictGet games gid = some g → g.finished = true →
      make_move games gid player pos sym t =
        (false, cs "Game already finished", games)) ∧
    (∀ ct : Int, cs "Invalid turn number, expected " ++ intToStr ct ∉
      [cs "Game not found", cs "Game already finished", cs "Player not in this game",
       cs "Not your turn", cs "Invalid position", cs "Position already occupied"]) ∧
    (∀ es : List Char, es = cs "X" ∨ es = cs "O" →
      cs "Wrong symbol, expected " ++ es ∉
        [cs "Game not found", cs "Game already finished", cs "Player not in this game",
         cs "Not your turn", cs "Invalid position", cs "Position already occupied"]) ∧
    (∀ (ct : Int) (es : List Char), es = cs "X" ∨ es = cs "O" →
      cs "Invalid turn number, expected " ++ intToStr ct ≠
        cs "Wrong symbol, expected " ++ es) ∧
    List.Nodup
      [cs "Game not found", cs "Game already finished", cs "Player not in this game",
       cs "Not your turn", cs "Invalid position", cs "Position already occupied"] := by
  refine ⟨?_, ?_, ?_, ?_, ?_, by decide⟩
  · intro h
    rcases hg : pyDictGet games gid with _ | g
    · rw [make_move_unknown games gid player pos sym t hg]
    · by_cases hf : g.finished = true
      · rw [make_move_finished games gid player pos sym t g hg hf]
      · replace hf : g.finished = false := by simpa using hf
        by_cases hin : player = g.player1 ∨ player = g.player2
        · by_cases hwt : player = g.whose_turn
          · by_cases ht : t = g.current_turn
            · by_cases hs : sym =
                (if player = g.player1 then g.player1_symbol else g.player2_symbol)
              · by_cases hp : pos < 0 ∨ pos > 8
                · rw [make_move_badpos games gid player pos sym t g hg hf hin hwt ht hs hp]
                · by_cases hocc : g.board.getD pos.toNat [] = []
                  · rw [make_move_accepted games gid player pos sym t g hg hf hin hwt
                      ht hs hp hocc] at h
                    exact absurd h (by simp)
                  · rw [make_move_occupied games gid player pos sym t g hg hf hin hwt
                      ht hs hp hocc]
              · rw [make_move_badsymbol games gid player pos sym t g hg hf hin hwt ht hs]
            · rw [make_move_badturn games gid player pos sym t g hg hf hin hwt ht]
          · rw [make_move_notturn games gid player pos sym t g hg hf hin hwt]
        · rw [make_move_notin games gid player pos sym t g hg hf hin]
  · intro g hg hf
    exact make_move_finished games gid player pos sym t g hg hf
  · intro ct
    simp only [List.mem_cons, List.not_mem_nil, or_false]
    push_neg
    exact ⟨turn_reason_ne ct _ (by decide), turn_reason_ne ct _ (by decide),
      turn_reason_ne ct _ (by decide), turn_reason_ne ct _ (by decide),
      turn_reason_ne ct _ (by decide), turn_reason_ne ct _ (by decide)⟩
  · intro es hes
    rcases hes with rfl | rfl <;> decide
  · intro ct es hes
    rcases hes with rfl | rfl <;> exact turn_reason_ne ct _ (by decide)

/-- Closed instantiation of `make_move_reject_no_side_effects`: a finished
game rejects a further move and the table is untouched. -/
theorem make_move_reject_witness :
    make_move
      [(cs "g", { game_id := cs "g", player1 := cs "alice", player2 := cs "bob",
                  player1_symbol := cs "X", player2_symbol := cs "O",
                  board := [cs "X", cs "X", cs "X", [], [], [], [], [], []],
                  current_turn := 4, whose_turn := cs "bob", started := true,
                  finished := true, winner := some (cs "alice"),
                  winning_line := some [0, 1, 2] })]
      (cs "g") (cs "bob") 4 (cs "O") 4 =
      (false, cs "Game already finished",
        [(cs "g", { game_id := cs "g", player1 := cs "alice", player2 := cs "bob",
                    player1_symbol := cs "X", player2_symbol := cs "O",
                    board := [cs "X", cs "X", cs "X", [], [], [], [], [], []],
                    current_turn := 4, whose_turn := cs "bob", started := true,
                    finished := true, winner := some (cs "alice"),
                    winning_line := some [0, 1, 2] })]) :=
  (make_move_reject_no_side_effects _ (cs "g") (cs "bob") 4 (cs "O") 4).2.1
    { game_id := cs "g", player1 := cs "alice", player2 := cs "bob",
      player1_symbol := cs "X", player2_symbol := cs "O",
      board := [cs "X", cs "X", cs "X", [], [], [], [], [], []],
      current_turn := 4, whose_turn := cs "bob", started := true,
      finished := true, winner := some (cs "alice"),
      winning_line := some [0, 1, 2] } (by decide) (by decide)

/-! ## Turn alternation (tictactoe.py) -/

/-- A rejected move leaves the game table unchanged (helper). -/
theorem make_move_reject_eq (games : TTTManager) (gid player : List Char)
    (pos : Int) (sym : List Char) (t : Int)
    (h : (make_move games gid player pos sym t).1 = false) :
    (make_move games gid player pos sym t).2.2 = games := by
  rcases hg : pyDictGet games gid with _ | g
  · rw [make_move_unknown games gid player pos sym t hg]
  · by_cases hf : g.finished = true
    · rw [make_move_finished games gid player pos sym t g hg hf]
    · replace hf : g.finished = false := by simpa using hf
      by_cases hin : player = g.player1 ∨ player = g.player2
      · by_cases hwt : player = g.whose_turn
        · by_cases ht : t = g.current_turn
          · by_cases hs : sym =
              (if player = g.player1 then g.player1_symbol else g.player2_symbol)
            · by_cases hp : pos < 0 ∨ pos > 8
              · rw [make_move_badpos games gid player pos sym t g hg hf hin hwt ht hs hp]
              · by_cases hocc : g.board.getD pos.toNat [] = []
                · rw [make_move_accepted games gid player pos sym t g hg hf hin hwt
                    ht hs hp hocc] at h
                  exact absurd h (by simp)
                · rw [make_move_occupied games gid player pos sym t g hg hf hin hwt
                    ht hs hp hocc]
            · rw [make_move_badsymbol games gid player pos sym t g hg hf hin hwt ht hs]
          · rw [make_move_badturn games gid player pos sym t g hg hf hin hwt ht]
        · rw [make_move_notturn games gid player pos sym t g hg hf hin hwt]
      · rw [make_move_notin games gid player pos sym t g hg hf hin]

/-- A successful move has exactly the accepted shape: it was the stored
game's `whose_turn` player moving, and the table is updated with the moved
game (helper). -/
theorem make_move_success (games : TTTManager) (gid player : List Char)
    (pos : Int) (sym : List Char) (t : Int) (g : TicTacToeGame)
    (hg : pyDictGet games gid = some g)
    (h : (make_move games gid player pos sym t).1 = true) :
    make_move games gid player pos sym t =
      (true, cs "Move successful", pyDictSet games gid (movedGame g player pos sym)) ∧
    player = g.whose_turn := by
  by_cases hf : g.finished = true
  · rw [make_move_finished games gid player pos sym t g hg hf] at h
    exact absurd h (by simp)
  · replace hf : g.finished = false := by simpa using hf
    by_cases hin : player = g.player1 ∨ player = g.player2
    · by_cases hwt : player = g.whose_turn
      · by_cases ht : t = g.current_turn
        · by_cases hs : sym =
            (if player = g.player1 then g.player1_symbol else g.player2_symbol)
          · by_cases hp : pos < 0 ∨ pos > 8
            · rw [make_move_badpos games gid player pos sym t g hg hf hin hwt ht hs hp] at h
              exact absurd h (by simp)
            · by_cases hocc : g.board.getD pos.toNat [] = []
              · exact ⟨make_move_accepted games gid player pos sym t g hg hf hin hwt
                  ht hs hp hocc, hwt⟩
              · rw [make_move_occupied games gid player pos sym t g hg hf hin hwt
                  ht hs hp hocc] at h
                exact absurd h (by simp)
          · rw [make_move_badsymbol games gid player pos sym t g hg hf hin hwt ht hs] at h
            exact absurd h (by simp)
        · rw [make_move_badturn games gid player pos sym t g hg hf hin hwt ht] at h
          exact absurd h (by simp)
      · rw [make_move_notturn games gid player pos sym t g hg hf hin hwt] at h
        exact absurd h (by simp)
    · rw [make_move_notin games gid player pos sym t g hg hf hin] at h
      exact absurd h (by simp)

/-- Flipping the mover twice comes back to the start (helper for the
alternation argument). -/
theorem flip_flip (inviter invitee A : List Char) (HA : A = inviter ∨ A = invitee) :
    (if (if A = inviter then invitee else inviter) = inviter then invitee else inviter) = A := by
  by_cases h1 : A = inviter
  · simp only [h1, if_pos rfl]
    by_cases h2 : invitee = inviter
    · simp [h2, h1.symm]
    · simp [h2, h1.symm]
  · rcases HA with h | h
    · exact absurd h h1
    · simp only [if_neg h1, if_pos rfl]
      exact h.symm

/-- Invariant of a game under a move sequence: with `A` the player who moves
on even move counts, the turn counter always reads (accepted moves) + 1 and
`whose_turn` alternates between `A` and the other player. -/
theorem run_moves_inv (gid inviter invitee A : List Char)
    (HA : A = inviter ∨ A = invitee) :
    ∀ (ms : List MoveReq) (games : TTTManager) (g : TicTacToeGame) (n : Nat),
      (∀ r ∈ ms, r.game_id = gid) →
      pyDictGet games gid = some g →
      g.player1 = inviter → g.player2 = invitee →
      g.current_turn = (n : Int) + 1 →
      g.whose_turn = (if n % 2 = 0 then A else (if A = inviter then invitee else inviter)) →
      ∃ g', pyDictGet (run_moves games ms).1 gid = some g' ∧
        g'.player1 = inviter ∧ g'.player2 = invitee ∧
        g'.current_turn = ((n + (run_moves games ms).2 : Nat) : Int) + 1 ∧
        g'.whose_turn = (if (n + (run_moves games ms).2) % 2 = 0 then A
                         else (if A = inviter then invitee else inviter))
  | [], games, g, n, _, hg, h1, h2, hct, hwt => by
    refine ⟨g, ?_, h1, h2, ?_, ?_⟩ <;> simp [run_moves, hg, hct, hwt]
  | r :: rs, games, g, n, hms, hg, h1, h2, hct, hwt => by
    have hrg : r.game_id = gid := hms r (List.mem_cons_self r rs)
    have hms' : ∀ q ∈ rs, q.game_id = gid := fun q hq => hms q (List.mem_cons_of_mem r hq)
    rcases hb : (make_move games r.game_id r.player r.position r.symbol r.turn).1 with _ | _
    · -- rejected: nothing changes, the count is unchanged
      have hunc : (make_move games r.game_id r.player r.position r.symbol r.turn).2.2 =
          games := make_move_reject_eq games r.game_id r.player r.position r.symbol r.turn hb
      obtain ⟨g', hgg, hp1, hp2, hct', hwt'⟩ :=
        run_moves_inv gid inviter invitee A HA rs games g n hms' hg h1 h2 hct hwt
      refine ⟨g', ?_, hp1, hp2, ?_, ?_⟩ <;>
        simp [run_moves, hunc, hb, hgg, hct', hwt']
    · -- accepted: the moved game satisfies the invariant at n + 1
      have hsucc := make_move_success games r.game_id r.player r.position r.symbol
        r.turn g (by rw [hrg]; exact hg) hb
      set g1 := movedGame g r.player r.position r.symbol with hg1
      have hfields := movedGame_fields g r.player r.position r.symbol
      have hget1 : pyDictGet
          (make_move games r.game_id r.player r.position r.symbol r.turn).2.2 gid =
          some g1 := by
        rw [hsucc.1]
        simp only [hrg]
        exact pyDictGet_set_self games gid g1
      have hct1 : g1.current_turn = ((n + 1 : Nat) : Int) + 1 := by
        rw [hfields.1, hct]; push_cast; ring
      have hwt1 : g1.whose_turn =
          (if (n + 1) % 2 = 0 then A else (if A = inviter then invitee else inviter)) := by
        have hmv : r.player = g.whose_turn := hsucc.2
        rw [hfields.2.1, hmv, hwt, h1, h2]
        by_cases hn : n % 2 = 0
        · have hn1 : ¬((n + 1) % 2 = 0) := by omega
          simp [hn, hn1]
        · have hn1 : (n + 1) % 2 = 0 := by omega
          simp only [if_neg hn, if_pos hn1]
          exact flip_flip inviter invitee A HA
      obtain ⟨g', hgg, hp1, hp2, hct', hwt'⟩ :=
        run_moves_inv gid inviter invitee A HA rs _ g1 (n + 1) hms' hget1
          (by rw [hg1]; exact (movedGame_fields g r.player r.position r.symbol).2.2.1.trans h1)
          (by rw [hg1]; exact (movedGame_fields g r.player r.position r.symbol).2.2.2.1.trans h2)
          hct1 hwt1
      refine ⟨g', ?_, hp1, hp2, ?_, ?_⟩
      · simpa only [run_moves, hb, if_true] using hgg
      · simp only [run_moves, hb, if_true]
        rw [hct']
        push_cast
        ring
      · simp only [run_moves, hb, if_true]
        rw [hwt']
        have he : n + (1 + (run_moves
            (make_move games r.game_id r.player r.position r.symbol r.turn).2.2 rs).2) =
            n + 1 + (run_moves
            (make_move games r.game_id r.player r.position r.symbol r.turn).2.2 rs).2 := by
          omega
        rw [he]

/-- C3: a freshly created game starts with the X-holding player to move
(the inviter when the chosen symbol is `X`, else the invitee, who is then
assigned `X`); after any sequence of move requests on that game of which N
are accepted, the turn counter reads N + 1; `whose_turn` alternates between
the two players starting with the X-holder; and every accepted move
advances the turn counter by exactly 1. -/
theorem game_turn_alternation (games0 : TTTManager)
    (gid inviter invitee sym : List Char) (ms : List MoveReq)
    (hms : ∀ r ∈ ms, r.game_id = gid) :
    ((create_game games0 gid inviter invitee sym).1.whose_turn =
      (if sym = cs "X" then inviter else invitee)) ∧
    (∃ g', pyDictGet (run_moves (create_game games0 gid inviter invitee sym).2 ms).1 gid
        = some g' ∧
      g'.current_turn =
        ((run_moves (create_game games0 gid inviter invitee sym).2 ms).2 : Int) + 1 ∧
      g'.whose_turn =
        (if (run_moves (create_game games0 gid inviter invitee sym).2 ms).2 % 2 = 0
         then (if sym = cs "X" then inviter else invitee)
         else (if (if sym = cs "X" then inviter else invitee) = inviter
               then invitee else inviter))) ∧
    (∀ (games : TTTManager) (g : TicTacToeGame) (r : MoveReq),
      pyDictGet games r.game_id = some g →
      (make_move games r.game_id r.player r.position r.symbol r.turn).1 = true →
      ∃ g2, pyDictGet
          (make_move games r.game_id r.player r.position r.symbol r.turn).2.2 r.game_id
          = some g2 ∧ g2.current_turn = g.current_turn + 1) := by
  refine ⟨rfl, ?_, ?_⟩
  · have HA : (if sym = cs "X" then inviter else invitee) = inviter ∨
        (if sym = cs "X" then inviter else invitee) = invitee := by
      by_cases h : sym = cs "X" <;> simp [h]
    obtain ⟨g', hgg, hp1, hp2, hct', hwt'⟩ :=
      run_moves_inv gid inviter invitee (if sym = cs "X" then inviter else invitee) HA
        ms (create_game games0 gid inviter invitee sym).2
        (create_game games0 gid inviter invitee sym).1 0 hms
        (pyDictGet_set_self games0 gid _) rfl rfl (by simp [create_game])
        (by simp [create_game])
    exact ⟨g', hgg, by simpa using hct', by simpa using hwt'⟩
  · intro games g r hg hb
    have hsucc := make_move_success games r.game_id r.player r.position r.symbol
      r.turn g hg hb
    refine ⟨movedGame g r.player r.position r.symbol, ?_, ?_⟩
    · rw [hsucc.1]
      exact pyDictGet_set_self games r.game_id _
    · exact (movedGame_fields g r.player r.position r.symbol).1

/-- Closed instantiation of `game_turn_alternation`: two accepted moves and
one rejected request leave the counter at 3 with the X-holder to move. -/
theorem game_turn_alternation_witness :
    ((create_game [] (cs "g1") (cs "alice") (cs "bob") (cs "O")).1.whose_turn =
      (if cs "O" = cs "X" then cs "alice" else cs "bob")) ∧ True := by
  have h := game_turn_alternation [] (cs "g1") (cs "alice") (cs "bob") (cs "O")
    [⟨cs "g1", cs "bob", 0, cs "X", 1⟩, ⟨cs "g1", cs "bob", 1, cs "X", 2⟩,
     ⟨cs "g1", cs "alice", 1, cs "O", 2⟩]
    (by intro r hr; fin_cases hr <;> rfl)
  exact ⟨h.1, trivial⟩

/-! ## String-primitive lemmas for the codec -/

theorem mem_dropWhile_of_mem {p : Char → Bool} {l : List Char} {c : Char}
    (h : c ∈ l) (hc : p c = false) : c ∈ l.dropWhile p := by
  induction l with
  | nil => cases h
  | cons a t ih =>
    by_cases ha : p a
    · rw [List.dropWhile_cons_of_pos ha]
      rcases List.mem_cons.mp h with rfl | h'
      · rw [hc] at ha; cases ha
      · exact ih h'
    · rw [List.dropWhile_cons_of_neg ha]
      exact h

theorem dropWhile_eq_self_of {p : Char → Bool} {l : List Char}
    (h : ∀ c ∈ l, p c = false) : l.dropWhile p = l := by
  cases l with
  | nil => rfl
  | cons a t =>
    exact List.dropWhile_cons_of_neg (by simp [h a (List.mem_cons_self a t)])

theorem pyStrip_eq_self {l : List Char} (h : ∀ c ∈ l, pyIsSpace c = false) :
    pyStrip l = l := by
  unfold pyStrip
  rw [dropWhile_eq_self_of h, dropWhile_eq_self_of
    (fun c hc => h c (List.mem_reverse.mp hc)), List.reverse_reverse]

theorem pyStrip_ne_nil {l : List Char} {c : Char} (h : c ∈ l)
    (hc : pyIsSpace c = false) : pyStrip l ≠ [] := by
  unfold pyStrip
  intro he
  have h1 : c ∈ l.dropWhile pyIsSpace := mem_dropWhile_of_mem h hc
  have h2 : c ∈ (l.dropWhile pyIsSpace).reverse.dropWhile pyIsSpace :=
    mem_dropWhile_of_mem (List.mem_reverse.mpr h1) hc
  rw [List.reverse_eq_nil_iff] at he
  rw [he] at h2
  cases h2

theorem takeWhile_append_cons {p : Char → Bool} (k : List Char) (x : Char)
    (r : List Char) (hk : ∀ c ∈ k, p c = true) (hx : p x = false) :
    (k ++ x :: r).takeWhile p = k := by
  induction k with
  | nil =>
    rw [List.nil_append]
    exact List.takeWhile_cons_of_neg (by simp [hx])
  | cons a t ih =>
    rw [List.cons_append, List.takeWhile_cons_of_pos (hk a (List.mem_cons_self a t))]
    rw [ih (fun c hc => hk c (List.mem_cons_of_mem a hc))]

theorem dropWhile_append_cons {p : Char → Bool} (k : List Char) (x : Char)
    (r : List Char) (hk : ∀ c ∈ k, p c = true) (hx : p x = false) :
    (k ++ x :: r).dropWhile p = x :: r := by
  induction k with
  | nil =>
    rw [List.nil_append]
    exact List.dropWhile_cons_of_neg (by simp [hx])
  | cons a t ih =>
    rw [List.cons_append, List.dropWhile_cons_of_pos (hk a (List.mem_cons_self a t))]
    exact ih (fun c hc => hk c (List.mem_cons_of_mem a hc))

theorem contains_of_mem {l : List Char} {c : Char} (h : c ∈ l) :
    l.contains c = true := by
  induction l with
  | nil => cases h
  | cons a t ih =>
    rcases List.mem_cons.mp h with rfl | h'
    · simp [List.contains_cons]
    · simp only [List.contains_cons]
      simp only [Bool.or_eq_true, beq_iff_eq]
      right
      simpa using ih h' 

theorem replCRLF_eq_self : ∀ (l : List Char), '\r' ∉ l → replCRLF l = l
  | [], _ => rfl
  | [_], _ => rfl
  | a :: b :: rest, h => by
    have ha : ¬(a == '\r' && b == '\n') = true := by
      intro hc
      exact h (by simp_all)
    rw [replCRLF, if_neg ha]
    have : '\r' ∉ b :: rest := fun hc => h (List.mem_cons_of_mem a hc)
    rw [replCRLF_eq_self (b :: rest) this]

theorem endsWith2NL_append (x : List Char) :
    endsWith2NL (x ++ ['\n', '\n']) = true := by
  simp [endsWith2NL, List.reverse_append]

theorem msgBody_terminated (x : List Char) :
    msgBody (x ++ ['\n', '\n']) = x := by
  unfold msgBody
  rw [if_pos (endsWith2NL_append x)]
  simp [MSG_TERMINATOR]

theorem splitNL_no_sep {l : List Char} (h : '\n' ∉ l) : splitNL l = [l] := by
  induction l with
  | nil => rfl
  | cons a t ih =>
    have ha : ¬(a == '\n') = true := by
      intro hc
      exact h (by simp_all)
    rw [splitNL, if_neg ha, ih (fun hc => h (List.mem_cons_of_mem a hc))]

theorem splitNL_append {a : List Char} (r : List Char) (h : '\n' ∉ a) :
    splitNL (a ++ '\n' :: r) = a :: splitNL r := by
  induction a with
  | nil =>
    simp [splitNL]
  | cons c t ih =>
    have hc : ¬(c == '\n') = true := by
      intro hcc
      exact h (by simp_all)
    rw [List.cons_append, splitNL, if_neg hc,
      ih (fun hm => h (List.mem_cons_of_mem c hm))]

theorem splitNL_intercalateNL : ∀ (ls : List (List Char)),
    (∀ l ∈ ls, '\n' ∉ l) → ls ≠ [] → splitNL (intercalateNL ls) = ls
  | [], _, hne => absurd rfl hne
  | [l], h, _ => by
    rw [intercalateNL]
    exact splitNL_no_sep (h l (List.mem_cons_self l []))
  | l :: l' :: ls, h, _ => by
    show splitNL (l ++ '\n' :: intercalateNL (l' :: ls)) = _
    rw [splitNL_append _ (h l (List.mem_cons_self l (l' :: ls)))]
    rw [splitNL_intercalateNL (l' :: ls)
      (fun q hq => h q (List.mem_cons_of_mem l hq)) (by simp)]

theorem mem_intercalateNL : ∀ (ls : List (List Char)) (c : Char),
    c ∈ intercalateNL ls → c = '\n' ∨ ∃ l ∈ ls, c ∈ l
  | [], c, h => by cases h
  | [l], c, h => Or.inr ⟨l, List.mem_cons_self l [], h⟩
  | l :: l' :: ls, c, h => by
    rcases List.mem_append.mp h with h1 | h2
    · exact Or.inr ⟨l, List.mem_cons_self l (l' :: ls), h1⟩
    · rcases List.mem_cons.mp h2 with rfl | h3
      · exact Or.inl rfl
      · rcases mem_intercalateNL (l' :: ls) c h3 with h4 | ⟨q, hq, hcq⟩
        · exact Or.inl h4
        · exact Or.inr ⟨q, List.mem_cons_of_mem l hq, hcq⟩

/-! ## Round-trip machinery (messages.py) -/

/-- A record as emitted by a conforming sender: uppercase colon-free
whitespace-free keys with no line breaks, values with no leading whitespace
and no line breaks, distinct keys, a non-empty `TYPE`, and every field
required for its type present. -/
structure WellFormedRecord (kv : List (List Char × List Char)) : Prop where
  keys_clean : ∀ p ∈ kv, ∀ c ∈ p.1,
    pyIsSpace c = false ∧ Char.toUpper c = c ∧ c ≠ ':' ∧ c ≠ '\n' ∧ c ≠ '\r'
  vals_clean : ∀ p ∈ kv, pyLstrip p.2 = p.2 ∧ '\n' ∉ p.2 ∧ '\r' ∉ p.2
  keys_nodup : (kv.map Prod.fst).Nodup
  type_ok : ((pyDictGet kv (cs "TYPE")).getD []) ≠ []
  required_ok : ∀ f ∈ (REQUIRED_FIELDS
      (((pyDictGet kv (cs "TYPE")).getD []).map Char.toUpper)).getD [],
    (pyDictGet kv f).isSome

/-- Parsing one formatted line assigns exactly the original pair. -/
theorem parseLine_mkLine (acc : List (List Char × List Char))
    (k v : List Char)
    (hk : ∀ c ∈ k, pyIsSpace c = false ∧ Char.toUpper c = c ∧ c ≠ ':' ∧
      c ≠ '\n' ∧ c ≠ '\r')
    (hv : pyLstrip v = v) :
    parseLine acc (mkLine (k, v)) = pyDictSet acc k v := by
  show parseLine acc (k ++ ':' :: ' ' :: v) = pyDictSet acc k v
  have hcolon : ':' ∈ k ++ ':' :: ' ' :: v :=
    List.mem_append.mpr (Or.inr (List.mem_cons_self ':' (' ' :: v)))
  unfold parseLine
  rw [if_neg (pyStrip_ne_nil hcolon (by decide))]
  rw [if_neg (by simp [contains_of_mem hcolon])]
  have htake : (k ++ ':' :: ' ' :: v).takeWhile (fun c => !(c == ':')) = k :=
    takeWhile_append_cons k ':' (' ' :: v)
      (fun c hc => by simp [(hk c hc).2.2.1]) (by simp)
  have hdrop : (k ++ ':' :: ' ' :: v).dropWhile (fun c => !(c == ':')) = ':' :: ' ' :: v :=
    dropWhile_append_cons k ':' (' ' :: v)
      (fun c hc => by simp [(hk c hc).2.2.1]) (by simp)
  have hkey : (pyStrip k).map Char.toUpper = k := by
    rw [pyStrip_eq_self (fun c hc => (hk c hc).1)]
    calc k.map Char.toUpper = k.map id :=
          List.map_congr_left (fun c hc => (hk c hc).2.1)
      _ = k := List.map_id k
  have hval : pyLstrip ((':' :: ' ' :: v).drop 1) = v := by
    show pyLstrip (' ' :: v) = v
    unfold pyLstrip at hv ⊢
    rw [List.dropWhile_cons_of_pos (by decide)]
    exact hv
  simp only [htake, hdrop, hkey, hval]

/-- Folding the parser's line loop over formatted lines rebuilds the
original dict after the accumulator. -/
theorem foldl_parseLine_mkLine : ∀ (kv acc : List (List Char × List Char)),
    (∀ p ∈ kv, ∀ c ∈ p.1, pyIsSpace c = false ∧ Char.toUpper c = c ∧ c ≠ ':' ∧
      c ≠ '\n' ∧ c ≠ '\r') →
    (∀ p ∈ kv, pyLstrip p.2 = p.2) →
    (kv.map Prod.fst).Nodup →
    (∀ p ∈ kv, pyDictGet acc p.1 = none) →
    (kv.map mkLine).foldl parseLine acc = acc ++ kv
  | [], acc, _, _, _, _ => by simp
  | (k, v) :: rest, acc, hk, hv, hnd, hdisj => by
    rw [List.map_cons, List.foldl_cons,
      parseLine_mkLine acc k v (hk (k, v) (List.mem_cons_self _ _))
        (hv (k, v) (List.mem_cons_self _ _))]
    rw [pyDictSet_of_absent acc k v (hdisj (k, v) (List.mem_cons_self _ _))]
    have hnd1 : (k :: rest.map Prod.fst).Nodup := by simpa using hnd
    have hknotin : k ∉ rest.map Prod.fst := (List.nodup_cons.mp hnd1).1
    have hdisj2 : ∀ p ∈ rest, pyDictGet (acc ++ [(k, v)]) p.1 = none := by
      intro p hp
      rw [pyDictGet_append_left acc [(k, v)] p.1 (hdisj p (List.mem_cons_of_mem _ hp))]
      have hne : ¬(k = p.1) := by
        intro he
        exact hknotin (he ▸ List.mem_map_of_mem Prod.fst hp)
      simp [pyDictGet, hne]
    rw [foldl_parseLine_mkLine rest (acc ++ [(k, v)])
      (fun p hp => hk p (List.mem_cons_of_mem _ hp))
      (fun p hp => hv p (List.mem_cons_of_mem _ hp))
      (List.nodup_cons.mp hnd1).2 hdisj2]
    simp

/-- The parser's line loop rebuilds a well-formed record exactly. -/
theorem linesDict_format (kv : List (List Char × List Char))
    (h : WellFormedRecord kv) :
    linesDict (intercalateNL (kv.map mkLine)) = kv := by
  have hkvne : kv ≠ [] := by
    intro he
    exact h.type_ok (by rw [he]; rfl)
  have hnl : ∀ l ∈ kv.map mkLine, '\n' ∉ l := by
    intro l hl
    obtain ⟨p, hp, rfl⟩ := List.mem_map.mp hl
    intro hmem
    simp only [mkLine] at hmem
    rcases List.mem_append.mp hmem with h1 | h2
    · exact ((h.keys_clean p hp '\n' h1).2.2.2.1) rfl
    · rcases List.mem_cons.mp h2 with he | h3
      · exact absurd he (by decide)
      · rcases List.mem_cons.mp h3 with he | h4
        · exact absurd he (by decide)
        · exact (h.vals_clean p hp).2.1 h4
  unfold linesDict
  rw [splitNL_intercalateNL (kv.map mkLine) hnl (by simpa using hkvne)]
  rw [foldl_parseLine_mkLine kv [] h.keys_clean (fun p hp => (h.vals_clean p hp).1)
    h.keys_nodup (fun p hp => rfl)]
  simp

/-- The tail of the parser accepts a well-formed record's lines and returns
it unchanged (the defaulting branches never fire because the fields they
would default are required). -/
theorem parseFromBody_wf (kv : List (List Char × List Char)) (raw : List Char)
    (now : Nat) (h : WellFormedRecord kv) :
    parseFromBody (intercalateNL (kv.map mkLine)) raw now =
      .ok ⟨((pyDictGet kv (cs "TYPE")).getD []).map Char.toUpper, kv, raw⟩ := by
  have hld := linesDict_format kv h
  have htne : ((pyDictGet kv (cs "TYPE")).getD []).map Char.toUpper ≠ [] := by
    simpa using h.type_ok
  unfold parseFromBody
  rw [hld]
  rw [if_neg htne]
  rcases hreq : REQUIRED_FIELDS (((pyDictGet kv (cs "TYPE")).getD []).map Char.toUpper)
    with _ | req
  · -- no required-field table entry: no missing check, and the defaulting
    -- branches only apply to types that do have an entry
    simp only []
    rw [if_neg (by simp)]
    have hpost : ¬(((pyDictGet kv (cs "TYPE")).getD []).map Char.toUpper = cs "POST" ∧
        (pyDictGet kv (cs "TTL")).isNone) := by
      rintro ⟨hmt, _⟩
      rw [hmt] at hreq
      exact absurd hreq (by decide)
    have hdm : ¬(((pyDictGet kv (cs "TYPE")).getD []).map Char.toUpper = cs "DM" ∧
        (pyDictGet kv (cs "TIMESTAMP")).isNone) := by
      rintro ⟨hmt, _⟩
      rw [hmt] at hreq
      exact absurd hreq (by decide)
    have httt : ¬((((pyDictGet kv (cs "TYPE")).getD []).map Char.toUpper = cs "TICTACTOE_INVITE" ∨
        ((pyDictGet kv (cs "TYPE")).getD []).map Char.toUpper = cs "TICTACTOE_RESULT") ∧
        (pyDictGet kv (cs "TIMESTAMP")).isNone) := by
      rintro ⟨hmt | hmt, _⟩ <;> rw [hmt] at hreq <;> exact absurd hreq (by decide)
    rw [if_neg hpost, if_neg hdm, if_neg httt]
  · have hmiss : req.filter (fun f => (pyDictGet kv f).isNone) = [] := by
      refine List.filter_eq_nil_iff.mpr ?_
      intro f hf
      have := h.required_ok f (by rw [hreq]; simpa using hf)
      simp [Option.isNone_iff_eq_none]
      intro he
      rw [he] at this
      cases this
    simp only [hmiss]
    rw [if_neg (by simp)]
    have hpost : ¬(((pyDictGet kv (cs "TYPE")).getD []).map Char.toUpper = cs "POST" ∧
        (pyDictGet kv (cs "TTL")).isNone) := by
      rintro ⟨hmt, hnone⟩
      have hro := h.required_ok
      rw [hmt] at hro
      have := hro (cs "TTL") (by decide)
      rw [Option.isNone_iff_eq_none] at hnone
      rw [hnone] at this
      cases this
    have hdm : ¬(((pyDictGet kv (cs "TYPE")).getD []).map Char.toUpper = cs "DM" ∧
        (pyDictGet kv (cs "TIMESTAMP")).isNone) := by
      rintro ⟨hmt, hnone⟩
      have hro := h.required_ok
      rw [hmt] at hro
      have := hro (cs "TIMESTAMP") (by decide)
      rw [Option.isNone_iff_eq_none] at hnone
      rw [hnone] at this
      cases this
    have httt : ¬((((pyDictGet kv (cs "TYPE")).getD []).map Char.toUpper = cs "TICTACTOE_INVITE" ∨
        ((pyDictGet kv (cs "TYPE")).getD []).map Char.toUpper = cs "TICTACTOE_RESULT") ∧
        (pyDictGet kv (cs "TIMESTAMP")).isNone) := by
      rintro ⟨hmt | hmt, hnone⟩ <;>
        [(have hro := h.required_ok
          rw [hmt] at hro
          have := hro (cs "TIMESTAMP") (by decide)
          rw [Option.isNone_iff_eq_none] at hnone
          rw [hnone] at this
          cases this);
         (have hro := h.required_ok
          rw [hmt] at hro
          have := hro (cs "TIMESTAMP") (by decide)
          rw [Option.isNone_iff_eq_none] at hnone
          rw [hnone] at this
          cases this)]
    rw [if_neg hpost, if_neg hdm, if_neg httt]

/-- Whether `"\n\n"` (the record terminator) occurs as a substring. -/
def hasTermSub : List Char → Bool
  | a :: b :: r => (a == '\n' && b == '\n') || hasTermSub (b :: r)
  | _ => false

/-- Decoding an encoded well-formed record restores it (helper shared by the
round-trip and missing-terminator results). -/
theorem parse_message_format (kv : List (List Char × List Char)) (now : Nat)
    (h : WellFormedRecord kv) :
    parse_message (format_message kv) now =
      .ok ⟨((pyDictGet kv (cs "TYPE")).getD []).map Char.toUpper, kv,
        format_message kv⟩ := by
  have hnoCR : '\r' ∉ format_message kv := by
    intro hmem
    unfold format_message MSG_TERMINATOR at hmem
    rcases List.mem_append.mp hmem with h1 | h2
    · rcases mem_intercalateNL _ _ h1 with he | ⟨l, hl, hcl⟩
      · exact absurd he (by decide)
      · obtain ⟨p, hp, rfl⟩ := List.mem_map.mp hl
        simp only [mkLine] at hcl
        rcases List.mem_append.mp hcl with hk | hv2
        · exact ((h.keys_clean p hp '\r' hk).2.2.2.2) rfl
        · rcases List.mem_cons.mp hv2 with he | h3
          · exact absurd he (by decide)
          · rcases List.mem_cons.mp h3 with he | h4
            · exact absurd he (by decide)
            · exact (h.vals_clean p hp).2.2 h4
    · exact absurd h2 (by decide)
  show parseFromBody (msgBody (replCRLF (format_message kv)))
    (replCRLF (format_message kv)) now = _
  rw [replCRLF_eq_self _ hnoCR]
  have hbody : msgBody (format_message kv) = intercalateNL (kv.map mkLine) := by
    unfold format_message MSG_TERMINATOR
    exact msgBody_terminated _
  rw [hbody]
  exact parseFromBody_wf kv (format_message kv) now h

/-- C6 (amended): `decode (encode r) = r` for every well-formed record
whose keys are uppercase, colon-free and whitespace-free, whose values
contain no newline (not merely no terminator substring) and no leading
whitespace, whose keys are distinct, and which carries a non-empty TYPE
with all fields required for that type.  The decoded kv mapping is exactly
`r` and the decoded type is the uppercased TYPE value. -/
theorem decode_encode_roundtrip (kv : List (List Char × List Char)) (now : Nat)
    (h : WellFormedRecord kv) :
    parse_message (format_message kv) now =
      .ok ⟨((pyDictGet kv (cs "TYPE")).getD []).map Char.toUpper, kv,
        format_message kv⟩ :=
  parse_message_format kv now h

/-- Closed instantiation of `decode_encode_roundtrip`. -/
theorem decode_encode_roundtrip_witness :
    parse_message (format_message [(cs "TYPE", cs "PING"), (cs "USER_ID", cs "a@1")]) 0 =
      .ok ⟨cs "PING", [(cs "TYPE", cs "PING"), (cs "USER_ID", cs "a@1")],
        format_message [(cs "TYPE", cs "PING"), (cs "USER_ID", cs "a@1")]⟩ :=
  decode_encode_roundtrip [(cs "TYPE", cs "PING"), (cs "USER_ID", cs "a@1")] 0
    ⟨by decide, by decide, by decide, by decide, by decide⟩

/-- C6 counterexample: a record whose value contains a single newline (but
no terminator substring `"\n\n"`) does not round-trip — the decoder splits
the value into a spurious extra field, so `decode (encode r) ≠ r`. -/
theorem decode_encode_not_roundtrip :
    hasTermSub (cs "a\nZ: b") = false ∧
    parse_message (format_message
        [(cs "TYPE", cs "PING"), (cs "USER_ID", cs "a\nZ: b")]) 0 =
      .ok ⟨cs "PING",
        [(cs "TYPE", cs "PING"), (cs "USER_ID", cs "a"), (cs "Z", cs "b")],
        format_message [(cs "TYPE", cs "PING"), (cs "USER_ID", cs "a\nZ: b")]⟩ ∧
    [(cs "TYPE", cs "PING"), (cs "USER_ID", cs "a"), (cs "Z", cs "b")] ≠
      [(cs "TYPE", cs "PING"), (cs "USER_ID", cs "a\nZ: b")] := by
  refine ⟨by decide, by decide, by decide⟩

/-! ## Decoding without the blank-line terminator (messages.py) -/

theorem intercalateNL_ne_nil (l : List Char) (ls : List (List Char))
    (h : l ≠ []) : intercalateNL (l :: ls) ≠ [] := by
  cases ls with
  | nil => simpa [intercalateNL] using h
  | cons l2 ls => simp [intercalateNL]

theorem getLast?_mem_of : ∀ (l : List Char) (x : Char), l.getLast? = some x → x ∈ l
  | [], _, h => by cases h
  | [a], x, h => by
    simp only [List.getLast?_singleton, Option.some.injEq] at h
    simp [h]
  | a :: b :: t, x, h => by
    rw [List.getLast?_cons_cons] at h
    exact List.mem_cons_of_mem a (getLast?_mem_of (b :: t) x h)

theorem getLast?_mkLine_ne (p : List Char × List Char) (hv : '\n' ∉ p.2) :
    (mkLine p).getLast? ≠ some '\n' := by
  show (p.1 ++ ':' :: ' ' :: p.2).getLast? ≠ some '\n'
  rw [List.getLast?_append_cons]
  rw [List.getLast?_cons_cons]
  intro hlast
  have := getLast?_mem_of _ _ hlast
  rcases List.mem_cons.mp this with he | hm
  · exact absurd he (by decide)
  · exact hv hm

theorem head?_mkLine_ne (p : List Char × List Char)
    (hk : ∀ c ∈ p.1, c ≠ '\n') : (mkLine p).head? ≠ some '\n' := by
  show (p.1 ++ ':' :: ' ' :: p.2).head? ≠ some '\n'
  cases hp : p.1 with
  | nil => simp
  | cons c k =>
    have hc : c ≠ '\n' := hk c (by rw [hp]; exact List.mem_cons_self c k)
    simp [hc]

theorem getLast?_intercalateNL_ne : ∀ (ls : List (List Char)),
    (∀ l ∈ ls, l ≠ [] ∧ l.getLast? ≠ some '\n') →
    (intercalateNL ls).getLast? ≠ some '\n'
  | [], _ => by simp [intercalateNL]
  | [l], h => (h l (List.mem_cons_self l [])).2
  | l :: l2 :: ls, h => by
    show (l ++ '\n' :: intercalateNL (l2 :: ls)).getLast? ≠ some '\n'
    rw [List.getLast?_append_cons]
    have hrest : intercalateNL (l2 :: ls) ≠ [] :=
      intercalateNL_ne_nil l2 ls (h l2 (by simp)).1
    rcases hr : intercalateNL (l2 :: ls) with _ | ⟨c, r⟩
    · exact absurd hr hrest
    · rw [List.getLast?_cons_cons]
      rw [← hr]
      exact getLast?_intercalateNL_ne (l2 :: ls)
        (fun q hq => h q (List.mem_cons_of_mem l hq))

theorem head?_intercalateNL (l : List Char) (ls : List (List Char)) (h : l ≠ []) :
    (intercalateNL (l :: ls)).head? = l.head? := by
  cases ls with
  | nil => rfl
  | cons l2 ls =>
    show (l ++ '\n' :: intercalateNL (l2 :: ls)).head? = l.head?
    cases l with
    | nil => exact absurd rfl h
    | cons c k => rfl

theorem stripNLchars_eq_self (l : List Char) (hh : l.head? ≠ some '\n')
    (hl : l.getLast? ≠ some '\n') : stripNLchars l = l := by
  unfold stripNLchars
  have h1 : l.dropWhile (· == '\n') = l := by
    cases l with
    | nil => rfl
    | cons c t =>
      have hc : ¬(c == '\n') = true := by
        intro he
        exact hh (by simp_all)
      exact List.dropWhile_cons_of_neg hc
  rw [h1]
  have h2 : l.reverse.dropWhile (· == '\n') = l.reverse := by
    cases hr : l.reverse with
    | nil => rfl
    | cons c t =>
      have hc : ¬(c == '\n') = true := by
        intro he
        apply hl
        rw [← List.head?_reverse, hr]
        simp_all
      exact List.dropWhile_cons_of_neg hc
  rw [h2, List.reverse_reverse]

theorem endsWith2NL_eq_false (l : List Char) (hl : l.getLast? ≠ some '\n') :
    endsWith2NL l = false := by
  unfold endsWith2NL
  cases hr : l.reverse with
  | nil => rfl
  | cons c r =>
    have hc : c ≠ '\n' := by
      intro he
      apply hl
      rw [← List.head?_reverse, hr, he]
      rfl
    simp [hc]

/-- C9: input made of valid `KEY: value` lines with a TYPE and all required
fields but NO trailing blank-line terminator decodes successfully, and
yields the same type and kv mapping as the terminated form. -/
theorem decode_missing_terminator (kv : List (List Char × List Char)) (now : Nat)
    (h : WellFormedRecord kv) :
    parse_message (intercalateNL (kv.map mkLine)) now =
      .ok ⟨((pyDictGet kv (cs "TYPE")).getD []).map Char.toUpper, kv,
        intercalateNL (kv.map mkLine)⟩ ∧
    parse_message (format_message kv) now =
      .ok ⟨((pyDictGet kv (cs "TYPE")).getD []).map Char.toUpper, kv,
        format_message kv⟩ := by
  refine ⟨?_, parse_message_format kv now h⟩
  have hnoCR : '\r' ∉ intercalateNL (kv.map mkLine) := by
    intro hmem
    rcases mem_intercalateNL _ _ hmem with he | ⟨l, hl, hcl⟩
    · exact absurd he (by decide)
    · obtain ⟨p, hp, rfl⟩ := List.mem_map.mp hl
      simp only [mkLine] at hcl
      rcases List.mem_append.mp hcl with hk | hv2
      · exact ((h.keys_clean p hp '\r' hk).2.2.2.2) rfl
      · rcases List.mem_cons.mp hv2 with he | h3
        · exact absurd he (by decide)
        · rcases List.mem_cons.mp h3 with he | h4
          · exact absurd he (by decide)
          · exact (h.vals_clean p hp).2.2 h4
  have hkvne : kv ≠ [] := fun he => h.type_ok (by rw [he]; rfl)
  have hlines : ∀ l ∈ kv.map mkLine, l ≠ [] ∧ l.getLast? ≠ some '\n' := by
    intro l hl
    obtain ⟨p, hp, rfl⟩ := List.mem_map.mp hl
    exact ⟨by simp [mkLine], getLast?_mkLine_ne p (h.vals_clean p hp).2.1⟩
  have hlast : (intercalateNL (kv.map mkLine)).getLast? ≠ some '\n' :=
    getLast?_intercalateNL_ne _ hlines
  have hhead : (intercalateNL (kv.map mkLine)).head? ≠ some '\n' := by
    obtain ⟨p, rest, hkv⟩ : ∃ p rest, kv = p :: rest := by
      cases kv with
      | nil => exact absurd rfl hkvne
      | cons p rest => exact ⟨p, rest, rfl⟩
    rw [hkv, List.map_cons, head?_intercalateNL _ _ (by simp [mkLine])]
    exact head?_mkLine_ne p
      (fun c hc =>
        (h.keys_clean p (by rw [hkv]; exact List.mem_cons_self p rest) c hc).2.2.2.1)
  show parseFromBody (msgBody (replCRLF (intercalateNL (kv.map mkLine))))
    (replCRLF (intercalateNL (kv.map mkLine))) now = _
  rw [replCRLF_eq_self _ hnoCR]
  have hbody : msgBody (intercalateNL (kv.map mkLine)) =
      intercalateNL (kv.map mkLine) := by
    unfold msgBody
    rw [endsWith2NL_eq_false _ hlast]
    simp only [Bool.false_eq_true, if_false]
    exact stripNLchars_eq_self _ hhead hlast
  rw [hbody]
  exact parseFromBody_wf kv _ now h

/-- Closed instantiation of `decode_missing_terminator`. -/
theorem decode_missing_terminator_witness :
    parse_message (cs "TYPE: PING\nUSER_ID: a@1") 0 =
      .ok ⟨cs "PING", [(cs "TYPE", cs "PING"), (cs "USER_ID", cs "a@1")],
        cs "TYPE: PING\nUSER_ID: a@1"⟩ := by
  have h := (decode_missing_terminator
    [(cs "TYPE", cs "PING"), (cs "USER_ID", cs "a@1")] 0
    ⟨by decide, by decide, by decide, by decide, by decide⟩).1
  simpa using h

/-! ## Missing-field rejection (messages.py) -/

/-- The kv dict `parse_message` accumulates for a given raw input. -/
def decodedKV (raw : List Char) : List (List Char × List Char) :=
  linesDict (msgBody (replCRLF raw))

/-- The (uppercased) message type `parse_message` sees for a raw input. -/
def decodedType (raw : List Char) : List Char :=
  ((pyDictGet (decodedKV raw) (cs "TYPE")).getD []).map Char.toUpper

/-- Modelled from the spec: the required-field table of spec section 6,
which additionally covers `FILE_OFFER`, `FILE_CHUNK`, `FILE_RECEIVED` and
`LIKE` (the GROUP kinds are listed there without a concrete field set and
are omitted).  The code's `REQUIRED_FIELDS` has no entries for these
kinds. -/
def SPEC_REQUIRED_FIELDS (t : List Char) : Option (List (List Char)) :=
  if t = cs "FILE_OFFER" then
    some [cs "TYPE", cs "FROM", cs "TO", cs "FILENAME", cs "FILESIZE",
      cs "FILETYPE", cs "FILEID", cs "TIMESTAMP", cs "TOKEN"]
  else if t = cs "FILE_CHUNK" then
    some [cs "TYPE", cs "FROM", cs "TO", cs "FILEID", cs "CHUNK_INDEX",
      cs "TOTAL_CHUNKS", cs "CHUNK_SIZE", cs "TOKEN", cs "DATA"]
  else if t = cs "FILE_RECEIVED" then
    some [cs "TYPE", cs "FROM", cs "TO", cs "FILEID", cs "STATUS", cs "TIMESTAMP"]
  else if t = cs "LIKE" then
    some [cs "TYPE", cs "FROM", cs "TO", cs "POST_TIMESTAMP", cs "ACTION",
      cs "TIMESTAMP", cs "TOKEN"]
  else REQUIRED_FIELDS t

/-- C1 (amended): for every message type the decoder's own required-field
table covers (PROFILE, POST, DM, PING, ACK, FOLLOW, UNFOLLOW and the four
TICTACTOE kinds), decoding a record from which any required field is absent
fails with a missing-field error naming exactly the absent keys, and never
returns a parsed record.  The FILE_*, LIKE and GROUP kinds are not in that
table and get no such check. -/
theorem decode_missing_field_error (raw : List Char) (now : Nat)
    (req : List (List Char))
    (hreq : REQUIRED_FIELDS (decodedType raw) = some req)
    (hmiss : req.filter (fun f => (pyDictGet (decodedKV raw) f).isNone) ≠ []) :
    parse_message raw now =
      .error (.missingFields (decodedType raw)
        (req.filter (fun f => (pyDictGet (decodedKV raw) f).isNone))) := by
  have htne2 : ((pyDictGet (decodedKV raw) (cs "TYPE")).getD []).map Char.toUpper ≠ [] := by
    intro he
    have hreq2 : REQUIRED_FIELDS (decodedType raw) = some req := hreq
    rw [show decodedType raw =
      ((pyDictGet (decodedKV raw) (cs "TYPE")).getD []).map Char.toUpper from rfl,
      he, show REQUIRED_FIELDS ([] : List Char) = none from by decide] at hreq2
    cases hreq2
  have hreq2 : REQUIRED_FIELDS
      (((pyDictGet (decodedKV raw) (cs "TYPE")).getD []).map Char.toUpper) =
      some req := hreq
  have hmiss2 : req.filter (fun f => (pyDictGet (decodedKV raw) f).isNone) ≠ [] := hmiss
  have hld1 : linesDict (msgBody (replCRLF raw)) = decodedKV raw := rfl
  show parseFromBody (msgBody (replCRLF raw)) (replCRLF raw) now = _
  unfold parseFromBody
  rw [hld1, if_neg htne2]
  rcases hreq3 : REQUIRED_FIELDS
      (((pyDictGet (decodedKV raw) (cs "TYPE")).getD []).map Char.toUpper)
    with _ | req'
  · rw [hreq2] at hreq3
    cases hreq3
  · have hre : req = req' := by
      rw [hreq2] at hreq3
      exact Option.some.inj hreq3
    subst hre
    simp only []
    rw [if_pos hmiss2]
    rfl

/-- Closed instantiation of `decode_missing_field_error`: a POST missing
CONTENT, TTL, MESSAGE_ID and TOKEN is rejected naming exactly those. -/
theorem decode_missing_field_error_witness :
    parse_message (cs "TYPE: POST\nUSER_ID: u@1\n\n") 7 =
      .error (.missingFields (cs "POST")
        [cs "CONTENT", cs "TTL", cs "MESSAGE_ID", cs "TOKEN"]) := by
  have h := decode_missing_field_error (cs "TYPE: POST\nUSER_ID: u@1\n\n") 7
    [cs "TYPE", cs "USER_ID", cs "CONTENT", cs "TTL", cs "MESSAGE_ID", cs "TOKEN"]
    (by decide) (by decide)
  simpa using h

/-- C1 counterexample: the spec's table says FROM (among others) is required
for FILE_OFFER, but the decoder, whose own table has no FILE_OFFER entry,
accepts a FILE_OFFER record carrying nothing but TYPE instead of failing
with a missing-field error. -/
theorem decode_file_offer_unchecked :
    (∃ r, SPEC_REQUIRED_FIELDS (cs "FILE_OFFER") = some r ∧ cs "FROM" ∈ r) ∧
    REQUIRED_FIELDS (cs "FILE_OFFER") = none ∧
    pyDictGet (decodedKV (cs "TYPE: FILE_OFFER\n\n")) (cs "FROM") = none ∧
    parse_message (cs "TYPE: FILE_OFFER\n\n") 0 =
      .ok ⟨cs "FILE_OFFER", [(cs "TYPE", cs "FILE_OFFER")],
        cs "TYPE: FILE_OFFER\n\n"⟩ := by
  refine ⟨⟨_, rfl, by decide⟩, by decide, by decide, by decide⟩
